import Mathlib

/-!
# Verification of the trace-decoding subsystem of `evm-rpc-mcp-server`

This file is a shallow embedding, in Lean 4, of the trace decoding and
rendering subsystem implemented in `src/helpers.ts` (the revision with the
`DEBUG` flag and the `implementationCache`).  JavaScript strings are modelled
as Lean `String`s (UTF-16 code units coincide with code points on the Basic
Multilingual Plane, and every string this code manipulates is ASCII),
JavaScript numbers appearing in integral positions as `Int`/`Nat` (`NaN` as
`Option.none`), and `Map`/plain-object dictionaries as association lists with
JavaScript assignment semantics.  The mutable module-level caches are gathered
in an explicit state record that every stateful function threads; the network
is an oracle `String → Option RawResponse` (`none` modelling a fetch error, a
non-ok HTTP status, or a JSON body that fails to parse).  Functions that can
throw past their own boundary return `Except JsErr · × SysState` (the state
component records the mutations performed before the throw, as JavaScript's
global caches would).  The state additionally carries instrumentation logs
(`fetchLog`, `contractKeyLog`, `implKeyLog`) recording outbound HTTP fetches
and the keys used on each cache; these logs only record events, they never
influence control flow.

Floating-point display (`Number(wei)/1e18`) and locale-dependent number
formatting (`toLocaleString`) are taken as function parameters, since their
output strings are not specified by the language; no claim depends on them.
-/

set_option maxRecDepth 40000

/-! ## Generic JavaScript semantics helpers -/

/-- ECMAScript `String.prototype.slice` / `Array.prototype.slice` index
clamping, on the underlying element list. -/
def jsSliceList {α : Type} (l : List α) (a b : Int) : List α :=
  let len : Int := l.length
  let s := if a < 0 then max (len + a) 0 else min a len
  let e := if b < 0 then max (len + b) 0 else min b len
  (l.drop s.toNat).take (e - s).toNat

/-- `s.slice(a, b)` on a JavaScript string. -/
def jsSlice (s : String) (a b : Int) : String :=
  String.mk (jsSliceList s.data a b)

/-- `s.slice(a)` (to the end of the string). -/
def jsSliceFrom (s : String) (a : Int) : String :=
  String.mk (jsSliceList s.data a s.data.length)

/-- The last `n` elements, i.e. `slice(-n)` for `n > 0`. -/
def strLastN (s : String) (n : Nat) : String :=
  String.mk (s.data.drop (s.data.length - n))

/-- `String.prototype.startsWith`. -/
def strStartsWith (s p : String) : Bool :=
  p.data.isPrefixOf s.data

/-- `String.prototype.endsWith`. -/
def strEndsWith (s p : String) : Bool :=
  p.data.isSuffixOf s.data

/-- ASCII `String.prototype.toLowerCase` on one character (all strings this
program lower-cases are ASCII hex addresses). -/
def jsToLowerChar (c : Char) : Char :=
  if 'A' ≤ c ∧ c ≤ 'Z' then Char.ofNat (c.toNat + 32) else c

/-- ASCII `String.prototype.toLowerCase`. -/
def jsToLower (s : String) : String :=
  String.mk (s.data.map jsToLowerChar)

/-- `'str'.repeat(n)`. -/
def strRepeat (s : String) (n : Nat) : String :=
  String.mk ((List.replicate n s.data).flatten)

/-- `Array.prototype.join(sep)`. -/
def joinSep (sep : String) : List String → String
  | [] => ""
  | [x] => x
  | x :: rest => x ++ sep ++ joinSep sep rest

/-- Concatenation of string fragments appended one by one to an accumulator. -/
def strConcat (l : List String) : String :=
  l.foldl (fun a b => a ++ b) ""

/-- `String.prototype.padStart(len, c)`. -/
def padStart (s : String) (len : Nat) (c : Char) : String :=
  String.mk (List.replicate (len - s.data.length) c ++ s.data)

def isDecDigit (c : Char) : Bool := '0' ≤ c ∧ c ≤ '9'

def isHexDigitChar (c : Char) : Bool :=
  ('0' ≤ c ∧ c ≤ '9') ∨ ('a' ≤ c ∧ c ≤ 'f') ∨ ('A' ≤ c ∧ c ≤ 'F')

def hexDigitVal (c : Char) : Nat :=
  if '0' ≤ c ∧ c ≤ '9' then c.toNat - 48
  else if 'a' ≤ c ∧ c ≤ 'f' then c.toNat - 87
  else if 'A' ≤ c ∧ c ≤ 'F' then c.toNat - 55
  else 0

def hexValOfDigits (ds : List Char) : Nat :=
  ds.foldl (fun acc c => acc * 16 + hexDigitVal c) 0

def decValOfDigits (ds : List Char) : Nat :=
  ds.foldl (fun acc c => acc * 10 + (c.toNat - 48)) 0

/-- The digit characters JavaScript's `Number.prototype.toString(16)` uses. -/
def hexDigitChar (n : Nat) : Char :=
  if n < 10 then Char.ofNat (48 + n) else Char.ofNat (87 + n)

/-- Hex rendering of a natural number, most significant digit first
(fuel-based so that it reduces definitionally; the fuel `n` itself always
suffices since the value shrinks 16-fold per digit). -/
def natToHexAux (fuel n : Nat) : List Char :=
  match fuel, n with
  | 0, _ => []
  | _ + 1, 0 => []
  | fuel + 1, n + 1 => natToHexAux fuel ((n + 1) / 16) ++ [hexDigitChar ((n + 1) % 16)]

/-- JavaScript `n.toString(16)` for a non-negative integer. -/
def natToHexStr (n : Nat) : String :=
  if n = 0 then "0" else String.mk (natToHexAux n n)

def natToDecAux (fuel n : Nat) : List Char :=
  match fuel, n with
  | 0, _ => []
  | _ + 1, 0 => []
  | fuel + 1, n + 1 => natToDecAux fuel ((n + 1) / 10) ++ [Char.ofNat (48 + (n + 1) % 10)]

/-- Decimal rendering of a natural number (JavaScript default `toString`). -/
def natToDecStr (n : Nat) : String :=
  if n = 0 then "0" else String.mk (natToDecAux n n)

/-- Decimal rendering of an integer. -/
def intToDecStr (n : Int) : String :=
  if n < 0 then "-" ++ natToDecStr n.natAbs else natToDecStr n.natAbs

/-- Template-literal rendering of an integral JavaScript number, `none`
standing for `NaN`. -/
def numToString (n : Option Int) : String :=
  match n with
  | some v => intToDecStr v
  | none => "NaN"

/-- ECMAScript `parseInt(s, 16)`: optional sign, optional `0x`/`0X` prefix,
then the maximal prefix of hex digits; `none` is `NaN`.  (Leading-whitespace
skipping is not modelled; every argument in this program is a hex fragment.) -/
def parseIntRadix16 (s : String) : Option Int :=
  let (sign, rest) : Int × List Char :=
    match s.data with
    | '-' :: t => (-1, t)
    | '+' :: t => (1, t)
    | t => (1, t)
  let rest2 : List Char :=
    match rest with
    | '0' :: 'x' :: t => t
    | '0' :: 'X' :: t => t
    | t => t
  let ds := rest2.takeWhile isHexDigitChar
  if ds = [] then none else some (sign * (hexValOfDigits ds : Nat))

/-- ECMAScript `parseInt(s)` with no radix argument: auto-detects a `0x`
prefix (hex) and otherwise parses a maximal decimal-digit prefix. -/
def jsParseIntAuto (s : String) : Option Int :=
  let (sign, rest) : Int × List Char :=
    match s.data with
    | '-' :: t => (-1, t)
    | '+' :: t => (1, t)
    | t => (1, t)
  match rest with
  | '0' :: 'x' :: t =>
    let ds := t.takeWhile isHexDigitChar
    if ds = [] then none else some (sign * (hexValOfDigits ds : Nat))
  | '0' :: 'X' :: t =>
    let ds := t.takeWhile isHexDigitChar
    if ds = [] then none else some (sign * (hexValOfDigits ds : Nat))
  | t =>
    let ds := t.takeWhile isDecDigit
    if ds = [] then none else some (sign * (decValOfDigits ds : Nat))

/-- `BigInt('0x' + tail)`: succeeds exactly when `tail` is a non-empty string
of hex digits; otherwise the constructor throws (`none`). -/
def jsBigIntHexTail (tail : String) : Option Nat :=
  if tail.data ≠ [] ∧ tail.data.all isHexDigitChar then
    some (hexValOfDigits tail.data)
  else none

/-- `BigInt(s)` for a string: empty string is `0`, a `0x`/`0X` prefix demands
hex digits, otherwise an optionally signed all-decimal-digit literal; every
other shape throws (`none`).  (Whitespace trimming is not modelled; the
arguments in this program are hex-quantity strings.) -/
def jsBigInt (s : String) : Option Int :=
  match s.data with
  | [] => some 0
  | '0' :: 'x' :: t =>
    if t ≠ [] ∧ t.all isHexDigitChar then some ((hexValOfDigits t : Nat) : Int) else none
  | '0' :: 'X' :: t =>
    if t ≠ [] ∧ t.all isHexDigitChar then some ((hexValOfDigits t : Nat) : Int) else none
  | '-' :: t =>
    if t ≠ [] ∧ t.all isDecDigit then some (-((decValOfDigits t : Nat) : Int)) else none
  | t =>
    if t.all isDecDigit then some ((decValOfDigits t : Nat) : Int) else none

/-- Splitting into chunks of `n`, fuel-based structural recursion (the loop
`for (i = 0; i < len; i += 64) push(slice(i, i + 64))`). -/
def chunksOfAux {α : Type} (n : Nat) : Nat → List α → List (List α)
  | 0, _ => []
  | _ + 1, [] => []
  | fuel + 1, a :: rest => ((a :: rest).take n) :: chunksOfAux n fuel ((a :: rest).drop n)

def chunksOf {α : Type} (n : Nat) (l : List α) : List (List α) :=
  if n = 0 then [] else chunksOfAux n l.length l

/-! ## Keccak-256 (the hash behind `@ethersproject/keccak256`) -/

def mask64 : Nat := 2 ^ 64 - 1

def rotl64 (x r : Nat) : Nat := ((x <<< (r % 64)) ||| (x >>> (64 - r % 64))) &&& mask64

/-- One step of the degree-8 LFSR (`x^8 + x^6 + x^5 + x^4 + 1`) that
generates the Keccak round constants. -/
def lfsrStep (r : Nat) : Nat :=
  if r &&& 128 ≠ 0 then ((r <<< 1) ^^^ 0x71) &&& 255 else (r <<< 1) &&& 255

/-- The first `n` output bits of that LFSR from register value `r`. -/
def lfsrBits : Nat → Nat → List Bool
  | 0, _ => []
  | n + 1, r => (r &&& 1 = 1) :: lfsrBits n (lfsrStep r)

/-- The 24 round constants: round `i` sets bit `2^j - 1` for each of its
seven LFSR output bits `rc(7i + j)` that is one. -/
def keccakRC : List Nat :=
  let bits := lfsrBits 168 1
  (List.range 24).map (fun i =>
    (List.range 7).foldl (fun acc j =>
      if bits.getD (7 * i + j) false then acc + 2 ^ (2 ^ j - 1) else acc) 0)

/-- The ρ rotation trajectory: starting from lane `(1,0)`, step `t` assigns
rotation `(t+1)(t+2)/2 mod 64` and moves to `(y, (2x+3y) mod 5)`. -/
def rhoWalk : Nat → Nat × Nat → Nat → List ((Nat × Nat) × Nat)
  | 0, _, _ => []
  | n + 1, (x, y), t =>
    ((x, y), ((t + 1) * (t + 2) / 2) % 64) :: rhoWalk n (y, (2 * x + 3 * y) % 5) (t + 1)

def rhoTable : List ((Nat × Nat) × Nat) := ((0, 0), 0) :: rhoWalk 24 (1, 0) 0

/-- The ρ rotation amount of lane `(x, y)`. -/
def rhoOffAt (x y : Nat) : Nat :=
  match rhoTable.find? (fun p => p.1.1 = x ∧ p.1.2 = y) with
  | some p => p.2
  | none => 0

def lane (A : List Nat) (x y : Nat) : Nat := A.getD (x + 5 * y) 0

def thetaStep (A : List Nat) : List Nat :=
  let C := (List.range 5).map fun x =>
    lane A x 0 ^^^ lane A x 1 ^^^ lane A x 2 ^^^ lane A x 3 ^^^ lane A x 4
  let D := (List.range 5).map fun x =>
    (C.getD ((x + 4) % 5) 0) ^^^ rotl64 (C.getD ((x + 1) % 5) 0) 1
  (List.range 25).map fun i => lane A (i % 5) (i / 5) ^^^ D.getD (i % 5) 0

def rhoPiStep (A : List Nat) : List Nat :=
  (List.range 25).map fun i =>
    let X := i % 5
    let Y := i / 5
    let x := (3 * (Y + 2 * X)) % 5
    rotl64 (lane A x X) (rhoOffAt x X)

def chiStep (A : List Nat) : List Nat :=
  (List.range 25).map fun i =>
    let X := i % 5
    let Y := i / 5
    lane A X Y ^^^ (((lane A ((X + 1) % 5) Y) ^^^ mask64) &&& lane A ((X + 2) % 5) Y)

def iotaStep (rc : Nat) (A : List Nat) : List Nat :=
  match A with
  | [] => []
  | a :: rest => (a ^^^ rc) :: rest

def keccakRound (A : List Nat) (rc : Nat) : List Nat :=
  iotaStep rc (chiStep (rhoPiStep (thetaStep A)))

def keccakF (A : List Nat) : List Nat := keccakRC.foldl keccakRound A

def keccakPad (msg : List Nat) : List Nat :=
  let padLen := 136 - (msg.length % 136)
  if padLen = 1 then msg ++ [0x81]
  else msg ++ [0x01] ++ List.replicate (padLen - 2) 0 ++ [0x80]

def bytesToLane (bs : List Nat) : Nat := bs.foldr (fun b acc => b + 256 * acc) 0

def absorbBlock (A : List Nat) (block : List Nat) : List Nat :=
  let lanes := (chunksOf 8 block).map bytesToLane
  (List.range 25).map fun i => (A.getD i 0) ^^^ (lanes.getD i 0)

def keccak256Bytes (msg : List Nat) : List Nat :=
  let blocks := chunksOf 136 (keccakPad msg)
  let final := blocks.foldl (fun A b => keccakF (absorbBlock A b)) (List.replicate 25 0)
  (List.range 32).map fun i => ((final.getD (i / 8) 0) >>> (8 * (i % 8))) &&& 255

def byteToHex (b : Nat) : List Char := [hexDigitChar (b / 16 % 16), hexDigitChar (b % 16)]

/-- UTF-8 encoding of one character (`@ethersproject/strings`' `toUtf8Bytes`). -/
def utf8EncodeChar (c : Char) : List Nat :=
  let n := c.toNat
  if n < 0x80 then [n]
  else if n < 0x800 then [0xC0 ||| (n >>> 6), 0x80 ||| (n &&& 0x3F)]
  else if n < 0x10000 then
    [0xE0 ||| (n >>> 12), 0x80 ||| ((n >>> 6) &&& 0x3F), 0x80 ||| (n &&& 0x3F)]
  else
    [0xF0 ||| (n >>> 18), 0x80 ||| ((n >>> 12) &&& 0x3F), 0x80 ||| ((n >>> 6) &&& 0x3F),
     0x80 ||| (n &&& 0x3F)]

def toUtf8Bytes (s : String) : List Nat := (s.data.map utf8EncodeChar).flatten

/-- `keccak256(toUtf8Bytes(s))` rendered as ethers does: `'0x'` plus 64
lower-case hex digits. -/
def keccak256 (s : String) : String :=
  "0x" ++ String.mk (((keccak256Bytes (toUtf8Bytes s)).map byteToHex).flatten)

/-! ## Data model (`src/helpers.ts`) -/

/-- One `{name, type}` parameter of an ABI entry; an absent `name` is the
empty string (both are falsy in JavaScript and treated identically by this
program). -/
structure AbiParam where
  name : String
  type : String
deriving DecidableEq, Repr

/-- One parsed ABI array item.  Only `type`, `name`, `inputs` and `outputs`
are ever read by the program; an absent `name` is modelled as `""` (falsy),
absent `inputs`/`outputs` as `[]` (the `|| []` / `?.` defaults make these
indistinguishable). -/
structure AbiEntry where
  type : String
  name : String
  inputs : List AbiParam
  outputs : List AbiParam
deriving DecidableEq, Repr

/-- A decoded JavaScript value as produced by the decoders: a string, a
boolean, or an array.  Every `values.push(...)` in the source pushes a string
expression, so array elements are strings. -/
inductive JsValue where
  | str (s : String)
  | bool (b : Bool)
  | arr (elems : List String)
deriving DecidableEq, Repr

/-- One element of `decodeParameters`' result. -/
structure DecodedParam where
  name : String
  value : JsValue
  type : String
deriving DecidableEq, Repr

/-- The result object of `decodeFunctionCall`; `rawSelector`/`contractName`
are absent (`none`) on the early-exit path. -/
structure DecodedCall where
  name : String
  signature : String
  args : List DecodedParam
  rawSelector : Option String
  contractName : Option String
deriving DecidableEq, Repr

/-- The processed contract-metadata object cached by `fetchContractData`.
The object literal stored at `helpers.ts` lines 594–600 has exactly the keys
`name`, `abi`, `functionsBySelector`, `eventsByTopic`, `source`; reading any
other property (in particular `implementations`) yields `undefined`, which is
what the always-`none` field below records. -/
structure ContractData where
  name : String
  abi : List AbiEntry
  functionsBySelector : List (String × AbiEntry)
  eventsByTopic : List (String × AbiEntry)
  source : Option String
  implementations : Option (List String)
deriving DecidableEq, Repr

/-- The shape of a JSON value in an `abi`-carrying position: either an array
of ABI entries (the only shape `Array.isArray` accepts) or anything else. -/
inductive AbiJson where
  | arr (entries : List AbiEntry)
  | nonArray
deriving DecidableEq, Repr

/-- The parsed JSON body of a metadata-service response.  Fields are
truthiness-normalised: a JSON value that is absent or falsy (`null`, `""`) is
`none`.  `resultParsed` models `JSON.parse(result)` (`none` = the parse
throws); it accompanies `result` because the program both compares the raw
string against the unverified sentinel and parses it. -/
structure RawResponse where
  abi : Option AbiJson
  result : Option String
  resultParsed : Option AbiJson
  name : Option String
  contractName : Option String
  source_code : Option String
  sourceCodeUpper : Option String
  implementations : Option (List String)
deriving DecidableEq, Repr

/-- All module-level mutable state of `helpers.ts`, plus instrumentation
logs: `fetchLog` records the address of every outbound HTTP GET,
`contractKeyLog` every key used on `contractCache` (`has`/`get`/`set`), and
`implKeyLog` every key used on `implementationCache`.  The logs record
events only; no function reads them. -/
structure SysState where
  contractCache : List (String × Option ContractData)
  implementationCache : List (String × String)
  selectorCache : List (String × String)
  fetchLog : List String
  contractKeyLog : List String
  implKeyLog : List String
deriving DecidableEq, Repr

/-- JavaScript object/`Map` lookup (keys are unique by construction, so the
first match is the binding). -/
def objGet {α : Type} : List (String × α) → String → Option α
  | [], _ => none
  | p :: rest, k => if p.1 = k then some p.2 else objGet rest k

/-- JavaScript object/`Map` assignment: overwrite in place if the key is
present, else append (preserving enumeration order). -/
def objSet {α : Type} : List (String × α) → String → α → List (String × α)
  | [], k, v => [(k, v)]
  | p :: rest, k, v => if p.1 = k then (k, v) :: rest else p :: objSet rest k v

/-- The seed of the module-level `selectorCache` (`helpers.ts` lines 503–510). -/
def initialSelectorCache : List (String × String) :=
  [("0x70a08231", "balanceOf(address)"),
   ("0xdd62ed3e", "allowance(address,address)"),
   ("0x6352211e", "ownerOf(uint256)"),
   ("0x081812fc", "getApproved(uint256)"),
   ("0x2a55205a", "isApprovedForAll(address,address)"),
   ("0xb88d4fde", "safeTransferFrom(address,address,uint256,bytes)")]

/-- The module state at process start. -/
def initialState : SysState :=
  { contractCache := [], implementationCache := [], selectorCache := initialSelectorCache,
    fetchLog := [], contractKeyLog := [], implKeyLog := [] }

/-- The errors this code can throw past its boundary. -/
inductive JsErr where
  | typeError
  | syntaxError
deriving DecidableEq, Repr

/-! ## Selector/topic computation (`getFunctionSelector`, `getEventTopic`) -/

/-- `getFunctionSignature` (helpers.ts 819–823). -/
def getFunctionSignature (funcInfo : AbiEntry) : String :=
  funcInfo.name ++ "(" ++ joinSep "," (funcInfo.inputs.map (fun i => i.type)) ++ ")"

/-- `getFunctionSelector` (helpers.ts 635–642): canonical signature, keccak-256,
first 4 bytes; registers the signature in `selectorCache` as a side effect. -/
def getFunctionSelector (funcDef : AbiEntry) (cache : List (String × String)) :
    String × List (String × String) :=
  let types := funcDef.inputs.map (fun i => i.type)
  let signature := funcDef.name ++ "(" ++ joinSep "," types ++ ")"
  let selector := jsSlice (keccak256 signature) 0 10
  (selector, objSet cache selector signature)

/-- ToInt32 (the `hash & hash` coercion): reduce into `[-2^31, 2^31)`. -/
def jsToInt32 (n : Int) : Int :=
  let m := n % 4294967296
  if m < 2147483648 then m else m - 4294967296

/-- The loop of `simpleHash` (helpers.ts 665–673):
`hash = (hash << 5) - hash + charCode; hash = hash & hash`.  `charCodeAt`
yields the UTF-16 unit, which equals `Char.toNat` for the BMP characters in
ABI signatures. -/
def simpleHashLoop : List Char → Int → Int
  | [], h => h
  | c :: rest, h => simpleHashLoop rest (jsToInt32 (jsToInt32 (h * 32) - h + c.toNat))

/-- `simpleHash` (helpers.ts 665–673): `Math.abs(hash).toString(16).padStart(8, '0')`. -/
def simpleHash (str : String) : String :=
  padStart (natToHexStr (simpleHashLoop str.data 0).natAbs) 8 '0'

/-- `getEventTopic` (helpers.ts 650–658). -/
def getEventTopic (eventDef : AbiEntry) : String :=
  if eventDef.name = "" then "0x"
  else
    let paramTypes := joinSep "," (eventDef.inputs.map (fun i => i.type))
    let signature := eventDef.name ++ "(" ++ paramTypes ++ ")"
    "0x" ++ simpleHash signature

/-! ## `fetchContractData` (helpers.ts 517–627) -/

def zeroAddress : String := "0x0000000000000000000000000000000000000000"

def unverifiedSentinel : String := "Contract source code not verified"

/-- The ABI-processing loop of `fetchContractData` (helpers.ts 581–591):
partition entries into the selector- and topic-keyed maps, threading the
`selectorCache` writes done by `getFunctionSelector`. -/
def processAbiEntries (entries : List AbiEntry) (cache : List (String × String)) :
    List (String × AbiEntry) × List (String × AbiEntry) × List (String × String) :=
  entries.foldl
    (fun acc item =>
      let fns := acc.1
      let evs := acc.2.1
      let sc := acc.2.2
      if item.type = "function" then
        let r := getFunctionSelector item sc
        (objSet fns r.1 item, evs, r.2)
      else if item.type = "event" then
        (fns, objSet evs (getEventTopic item) item, sc)
      else (fns, evs, sc))
    ([], [], cache)

/-- The response-processing body of `fetchContractData` (helpers.ts 572–602):
accept a structured `abi` or a parsable non-sentinel stringified `result`,
require an array, and build the composite metadata object.  A `JSON.parse`
throw (`resultParsed = none`) is caught by the surrounding `catch`, leaving
`contractData = null`.  Note the object literal copies no `implementations`
field. -/
def processResponse (data : RawResponse) (cache : List (String × String)) :
    Option ContractData × List (String × String) :=
  if data.abi.isSome ∨ (data.result.isSome ∧ data.result ≠ some unverifiedSentinel) then
    let abiVal : Option AbiJson :=
      match data.abi with
      | some a => some a
      | none => data.resultParsed
    match abiVal with
    | some (AbiJson.arr entries) =>
      let r := processAbiEntries entries cache
      (some
        { name :=
            match data.name with
            | some n => n
            | none => match data.contractName with
              | some n => n
              | none => "Unknown Contract",
          abi := entries,
          functionsBySelector := r.1,
          eventsByTopic := r.2.1,
          source :=
            match data.source_code with
            | some s => some s
            | none => data.sourceCodeUpper,
          implementations := none }, r.2.2)
    | _ => (none, cache)
  else (none, cache)

/-- `fetchContractData` (helpers.ts 517–627).  `apiSet` is the truthiness of
the `API_URL` environment constant; `oracle a = none` models a network error,
a non-ok status, or an unparsable body (all caught by the inner `catch`,
leaving `contractData = null`).  Never throws (the whole body sits in a
`try`/`catch` returning `null`). -/
def fetchContractData (apiSet : Bool) (oracle : String → Option RawResponse)
    (address : String) (s : SysState) : Option ContractData × SysState :=
  if address = "" then (none, s)
  else if apiSet = false then (none, s)
  else if address = zeroAddress then (none, s)
  else
    let a := jsToLower address
    let s1 := { s with contractKeyLog := s.contractKeyLog ++ [a] }
    match objGet s1.contractCache a with
    | some v =>
      (v, { s1 with contractKeyLog := s1.contractKeyLog ++ [a] })
    | none =>
      let s2 := { s1 with fetchLog := s1.fetchLog ++ [a] }
      match oracle a with
      | none =>
        (none, { s2 with contractCache := objSet s2.contractCache a none,
                         contractKeyLog := s2.contractKeyLog ++ [a] })
      | some data =>
        let r := processResponse data s2.selectorCache
        let s3 := { s2 with selectorCache := r.2 }
        match r.1 with
        | some c =>
          (some c, { s3 with contractCache := objSet s3.contractCache a (some c),
                             contractKeyLog := s3.contractKeyLog ++ [a] })
        | none =>
          (none, { s3 with contractCache := objSet s3.contractCache a none,
                           contractKeyLog := s3.contractKeyLog ++ [a] })

/-- `getImplementationAddress` (helpers.ts 680–696).  Note that both the
`has`/`get` probes and the `set` use `proxyAddress` exactly as supplied by
the caller, with no lower-casing. -/
def getImplementationAddress (apiSet : Bool) (oracle : String → Option RawResponse)
    (proxyAddress : String) (s : SysState) : Option String × SysState :=
  let s1 := { s with implKeyLog := s.implKeyLog ++ [proxyAddress] }
  match objGet s1.implementationCache proxyAddress with
  | some impl =>
    (some impl, { s1 with implKeyLog := s1.implKeyLog ++ [proxyAddress] })
  | none =>
    let r := fetchContractData apiSet oracle proxyAddress s1
    match r.1 with
    | none => (none, r.2)
    | some c =>
      match c.implementations with
      | some (impl :: _) =>
        (some impl,
         { r.2 with implementationCache := objSet r.2.implementationCache proxyAddress impl,
                    implKeyLog := r.2.implKeyLog ++ [proxyAddress] })
      | _ => (none, r.2)

/-! ## Parameter decoding (`decodeParameters`, helpers.ts 832–894) -/

/-- The per-parameter body of `decodeParameters`' `types.map((param, index) => ...)`. -/
def decodeParamWord (values : List String) (index : Nat) (param : AbiParam) : DecodedParam :=
  let name := if param.name = "" then "param" ++ natToDecStr index else param.name
  let type := param.type
  let value := values.getD index ""
  if type = "address" then
    { name := name, value := JsValue.str ("0x" ++ strLastN value 40), type := type }
  else if strStartsWith type "uint" then
    match jsBigIntHexTail value with
    | some n => { name := name, value := JsValue.str (natToDecStr n), type := type }
    | none => { name := name, value := JsValue.str "0", type := type }
  else if type = "bool" then
    { name := name, value := JsValue.bool (strLastN value 1 == "1"), type := type }
  else if strStartsWith type "bytes" then
    let size : Int :=
      match jsParseIntAuto (jsSliceFrom type 5) with
      | some n => if n = 0 then 32 else n
      | none => 32
    { name := name, value := JsValue.str ("0x" ++ jsSlice value 0 (size * 2)), type := type }
  else
    { name := name, value := JsValue.str ("0x" ++ value), type := type }

/-- `decodeParameters` (helpers.ts 832–894): strip `0x`, split into 64-char
words, decode positionally.  Never throws (`BigInt` is wrapped in
`try`/`catch` yielding `'0'`). -/
def decodeParameters (data : String) (types : List AbiParam) : List DecodedParam :=
  let data2 := if strStartsWith data "0x" then jsSliceFrom data 2 else data
  let values : List String := (chunksOf 64 data2.data).map String.mk
  types.mapIdx (fun index param => decodeParamWord values index param)

/-! ## `decodeFunctionCall` (helpers.ts 705–761) -/

/-- The fixed early-exit result for `callData` shorter than 10 characters.
The object literal carries neither `rawSelector` nor `contractName`. -/
def unknownCall : DecodedCall :=
  { name := "unknown", signature := "unknown()", args := [], rawSelector := none,
    contractName := none }

/-- The delegate-resolution block of `decodeFunctionCall` (helpers.ts
717–727): on a delegate call, resolve the implementation address and, when
both it and its fetched metadata are truthy, substitute that metadata for the
proxy's. -/
def resolveDelegate (apiSet : Bool) (oracle : String → Option RawResponse)
    (address : String) (isDelegate : Bool) (r0 : Option ContractData × SysState) :
    Option ContractData × SysState :=
  if isDelegate then
    let ri := getImplementationAddress apiSet oracle address r0.2
    match ri.1 with
    | some impl =>
      if impl = "" then (r0.1, ri.2)
      else
        let rimpl := fetchContractData apiSet oracle impl ri.2
        match rimpl.1 with
        | some d => (some d, rimpl.2)
        | none => (r0.1, rimpl.2)
    | none => (r0.1, ri.2)
  else r0

/-- `decodeFunctionCall` (helpers.ts 705–761).  Mirrors the source exactly:
early exit on short calldata; fetch the target's metadata; on a delegate
call, try the implementation resolution and substitute its metadata when both
the address and its metadata are truthy; decode via the ABI entry when the
selector is known, else fall back to the bare selector. -/
def decodeFunctionCall (apiSet : Bool) (oracle : String → Option RawResponse)
    (callData address : String) (isDelegate : Bool) (s : SysState) :
    DecodedCall × SysState :=
  if callData.data.length < 10 then (unknownCall, s)
  else
    let selector := jsToLower (jsSlice callData 0 10)
    let r0 := fetchContractData apiSet oracle address s
    let cd2 := resolveDelegate apiSet oracle address isDelegate r0
    let contractData := cd2.1
    let s2 := cd2.2
    match contractData with
    | some cdata =>
      match objGet cdata.functionsBySelector selector with
      | some funcInfo =>
        let inputData := jsSliceFrom callData 10
        let decodedParams := decodeParameters inputData funcInfo.inputs
        ({ name := funcInfo.name, signature := getFunctionSignature funcInfo,
           args := decodedParams, rawSelector := some selector,
           contractName := some cdata.name }, s2)
      | none =>
        ({ name := selector, signature := selector, args := [], rawSelector := some selector,
           contractName := none }, s2)
    | none =>
      ({ name := selector, signature := selector, args := [], rawSelector := some selector,
         contractName := none }, s2)

/-! ## `decodeFunctionOutput` (helpers.ts 770–812) -/

/-- The element-reading loop of the array branch (helpers.ts 792–802):
`for (i = 0; i < length; i++)`, reading `arrayData.slice(start, start+64)`
and pushing per the element type.  The `uint` branch's
`BigInt('0x' + value)` is not guarded by any `try`, so a malformed slice
throws a `SyntaxError` that propagates.  `count` is the number of loop
iterations (`0` when `length` is `NaN` or non-positive), `i` the current
index. -/
def decodeArrayLoop (paramType : String) (arrayData : String) (offset : Int) :
    Nat → Nat → Except JsErr (List String)
  | 0, _ => Except.ok []
  | count + 1, i =>
    let start := offset + 64 + i * 64
    let value := jsSlice arrayData start (start + 64)
    if strStartsWith paramType "address" then
      (decodeArrayLoop paramType arrayData offset count (i + 1)).map
        (fun rest => ("0x" ++ strLastN value 40) :: rest)
    else if strStartsWith paramType "uint" then
      match jsBigIntHexTail value with
      | some n =>
        (decodeArrayLoop paramType arrayData offset count (i + 1)).map
          (fun rest => natToDecStr n :: rest)
      | none => Except.error JsErr.syntaxError
    else
      (decodeArrayLoop paramType arrayData offset count (i + 1)).map
        (fun rest => ("0x" ++ value) :: rest)

/-- The `simplified` accumulation loop of `decodeFunctionOutput` (helpers.ts
782–807).  For an array-typed parameter the source reads the byte offset from
the parameter's own word, then the element count from `arrayData` at that
offset (`parseInt` of an out-of-range slice is `NaN`, and a `NaN` slice bound
coerces to `0`).  Calling `.startsWith` on a non-string decoded value would
throw a `TypeError`. -/
def simplifyOutputLoop : List DecodedParam → List (String × JsValue) →
    Except JsErr (List (String × JsValue))
  | [], acc => Except.ok acc
  | param :: rest, acc =>
    if strEndsWith param.type "[]" then
      match param.value with
      | JsValue.str pv =>
        let arrayData := if strStartsWith pv "0x" then jsSliceFrom pv 2 else pv
        let offsetOpt : Option Int := (parseIntRadix16 (jsSlice arrayData 0 64)).map (· * 2)
        let lengthOpt : Option Int :=
          match offsetOpt with
          | some o => parseIntRadix16 (jsSlice arrayData o (o + 64))
          | none => parseIntRadix16 (jsSlice arrayData 0 0)
        let count : Nat :=
          match lengthOpt with
          | some l => l.toNat
          | none => 0
        match decodeArrayLoop param.type arrayData (offsetOpt.getD 0) count 0 with
        | Except.ok values => simplifyOutputLoop rest (objSet acc param.name (JsValue.arr values))
        | Except.error e => Except.error e
      | _ => Except.error JsErr.typeError
    else
      simplifyOutputLoop rest (objSet acc param.name param.value)

/-- `decodeFunctionOutput` (helpers.ts 770–812).  `selector` is an
`Option String` because `formatTrace` passes `funcCall.rawSelector`, which is
absent on the early-exit path (`!selector` also rejects `""`). -/
def decodeFunctionOutput (apiSet : Bool) (oracle : String → Option RawResponse)
    (outputData : String) (selector : Option String) (address : String) (s : SysState) :
    Except JsErr (Option (List (String × JsValue))) × SysState :=
  if outputData = "" ∨ outputData = "0x" ∨ selector = none ∨ selector = some "" then
    (Except.ok none, s)
  else
    let r := fetchContractData apiSet oracle address s
    match r.1 with
    | some cdata =>
      match objGet cdata.functionsBySelector (selector.getD "") with
      | some funcInfo =>
        let decoded := decodeParameters outputData funcInfo.outputs
        match simplifyOutputLoop decoded [] with
        | Except.ok simplified => (Except.ok (some simplified), r.2)
        | Except.error e => (Except.error e, r.2)
      | none => (Except.ok none, r.2)
    | none => (Except.ok none, r.2)

/-! ## Rendering helpers -/

/-- `formatGas` (helpers.ts 901–903): `gas ? parseInt(gas,16).toLocaleString()
+ ' gas' : ''`.  `localeStr` renders a number per `toLocaleString` (its exact
output is locale-dependent and treated as a parameter). -/
def formatGas (localeStr : Option Int → String) (gas : Option String) : String :=
  match gas with
  | none => ""
  | some g => if g = "" then "" else localeStr (parseIntRadix16 g) ++ " gas"

/-- JavaScript string coercion of a decoded value (template literal /
`toString()`): arrays join their elements with `','`. -/
def jsDisplay : JsValue → String
  | JsValue.str s => s
  | JsValue.bool b => if b then "true" else "false"
  | JsValue.arr xs => joinSep "," xs

/-- `formatFunctionCallWithArgs` (helpers.ts 1018–1033). -/
def formatFunctionCallWithArgs (funcCall : DecodedCall) : String :=
  if funcCall.name = "" then ""
  else if funcCall.args ≠ [] then
    let namedArgs := joinSep ", " (funcCall.args.map (fun arg =>
      if arg.name ≠ "" then arg.name ++ ": " ++ jsDisplay arg.value else jsDisplay arg.value))
    funcCall.name ++ "(" ++ namedArgs ++ ")"
  else if funcCall.signature ≠ "" then funcCall.signature
  else funcCall.name

/-- `JSON.stringify` of a string (the strings produced by the decoders are
hex/decimal fragments with nothing to escape). -/
def jsonStr (s : String) : String := "\"" ++ s ++ "\""

def jsonOfJsValue : JsValue → String
  | JsValue.str s => jsonStr s
  | JsValue.bool b => if b then "true" else "false"
  | JsValue.arr xs => "[" ++ joinSep "," (xs.map jsonStr) ++ "]"

/-- `JSON.stringify` of the `simplified` output object, insertion order. -/
def jsonStringifyObj (m : List (String × JsValue)) : String :=
  "\x7b" ++ joinSep "," (m.map (fun p => jsonStr p.1 ++ ":" ++ jsonOfJsValue p.2)) ++ "\x7d"

/-- `JSON.stringify` of a string-valued storage snapshot object. -/
def jsonStringifyStrObj (m : List (String × String)) : String :=
  "\x7b" ++ joinSep "," (m.map (fun p => jsonStr p.1 ++ ":" ++ jsonStr p.2)) ++ "\x7d"

/-! ## Call-tree formatting (`formatCallTrace`, helpers.ts 932–1011) -/

/-- One `callTracer` frame (§6 of the spec): `to` is required by the data
model, `from`/`type`/`input`/`output`/`error`/`gas`/`gasUsed` may be absent. -/
inductive CallFrame where
  | mk (ctype : Option String) (fromAddr : Option String) (toAddr : String)
       (input : Option String) (output : Option String) (error : Option String)
       (gas : Option String) (gasUsed : Option String) (calls : List CallFrame)

def CallFrame.ctype : CallFrame → Option String
  | CallFrame.mk t _ _ _ _ _ _ _ _ => t

def CallFrame.toAddr : CallFrame → String
  | CallFrame.mk _ _ a _ _ _ _ _ _ => a

/-- The transaction summary (§6): `{hash, from, to?, value, gas, gasPrice,
input}`, hex-encoded numeric fields, `to` optional (absent for contract
creation). -/
structure TxInfo where
  hash : String
  fromAddr : String
  toAddr : Option String
  value : Option String
  gas : String
  gasPrice : String
  input : String
deriving DecidableEq, Repr

/-- JavaScript truthiness of an optional string (absent or `""` is falsy). -/
def jsTruthy : Option String → Bool
  | none => false
  | some s => s ≠ ""

/-- `x || dflt` on an optional string. -/
def jsOrStr (x : Option String) (dflt : String) : String :=
  match x with
  | some s => if s = "" then dflt else s
  | none => dflt

/-- The `trace.from ? await fetchContractData(trace.from) : null` step of
`formatTrace` (helpers.ts 960). -/
def fetchFromData (apiSet : Bool) (oracle : String → Option RawResponse)
    (fromAddr : Option String) (s : SysState) : Option ContractData × SysState :=
  match fromAddr with
  | some f => if f = "" then (none, s) else fetchContractData apiSet oracle f s
  | none => (none, s)

/-- The output block of `formatTrace` (helpers.ts 984–992): when the frame
has a truthy, non-`'0x'` output, try `decodeFunctionOutput` (whose array
branch can throw) and append either the JSON of the decoded structure or the
lower-cased raw hex to `result`. -/
def outputBlock (apiSet : Bool) (oracle : String → Option RawResponse)
    (output : Option String) (rawSelector : Option String) (toAddr indent result : String)
    (s : SysState) : Except JsErr String × SysState :=
  if jsTruthy output ∧ output ≠ some "0x" then
    let outV := output.getD ""
    let rOut := decodeFunctionOutput apiSet oracle outV rawSelector toAddr s
    match rOut.1 with
    | Except.error e => (Except.error e, rOut.2)
    | Except.ok (some dec) =>
      (Except.ok (result ++ indent ++ "üì§ Output: " ++ jsonStringifyObj dec ++ "\n"), rOut.2)
    | Except.ok none =>
      (Except.ok (result ++ indent ++ "üì§ Output: " ++ jsToLower outV ++ "\n"), rOut.2)
  else (Except.ok result, s)

/-- The per-frame body of `formatTrace` (helpers.ts 955–997), everything
before the recursion into children: resolve `to`/`from` metadata, decode the
call (delegate-aware), render the call line with gas metrics, append the
decoded or raw output (propagating a decode throw), then the error line. -/
def formatTraceHead (localeStr : Option Int → String) (apiSet : Bool)
    (oracle : String → Option RawResponse) (ctype fromAddr : Option String) (toAddr : String)
    (input output error gas gasUsed : Option String) (depth : Nat) (s : SysState) :
    Except JsErr String × SysState :=
  let indent := strRepeat "  " depth
  let rTo := fetchContractData apiSet oracle toAddr s
  let rFrom := fetchFromData apiSet oracle fromAddr rTo.2
  let toIdentifier :=
    match rTo.1 with
    | some c => if c.name ≠ "" then c.name else jsToLower toAddr
    | none => jsToLower toAddr
  let fromFallback :=
    if depth = 0 then "Caller"
    else
      match fromAddr with
      | some f => if f = "" then "0x" else jsToLower f
      | none => "0x"
  let fromIdentifier :=
    match rFrom.1 with
    | some c => if c.name ≠ "" then c.name else fromFallback
    | none => fromFallback
  let isDelegate := ctype = some "DELEGATECALL"
  let rCall := decodeFunctionCall apiSet oracle (jsOrStr input "0x") toAddr isDelegate rFrom.2
  let funcCall := rCall.1
  let funcDisplay := formatFunctionCallWithArgs funcCall
  let callType := jsOrStr ctype "CALL"
  let line := indent ++ callType ++ " from " ++ fromIdentifier ++ " to " ++ toIdentifier
  let line := if funcDisplay ≠ "" then line ++ " [" ++ funcDisplay ++ "]" else line
  let line :=
    if jsTruthy gas ∨ jsTruthy gasUsed then
      let gasUsedStr := if jsTruthy gasUsed then " ‚Üí " ++ formatGas localeStr gasUsed else ""
      line ++ " (" ++ formatGas localeStr gas ++ gasUsedStr ++ ")"
    else line
  let result := line ++ "\n"
  let outStep := outputBlock apiSet oracle output funcCall.rawSelector toAddr indent result rCall.2
  match outStep.1 with
  | Except.error e => (Except.error e, outStep.2)
  | Except.ok res2 =>
    (Except.ok
      (if jsTruthy error then res2 ++ indent ++ "‚ùå ERROR: " ++ error.getD "" ++ "\n"
       else res2),
     outStep.2)

mutual

/-- The recursive `formatTrace` closure inside `formatCallTrace` (helpers.ts
954–1007): the per-frame head, then the children in their original order.
Errors thrown by `decodeFunctionOutput` propagate; the returned state always
reflects the mutations already performed. -/
def formatTrace (localeStr : Option Int → String) (apiSet : Bool)
    (oracle : String → Option RawResponse) :
    CallFrame → Nat → SysState → Except JsErr String × SysState
  | CallFrame.mk ctype fromAddr toAddr input output error gas gasUsed calls, depth, s =>
    let r := formatTraceHead localeStr apiSet oracle ctype fromAddr toAddr input output error
      gas gasUsed depth s
    match r.1 with
    | Except.error e => (Except.error e, r.2)
    | Except.ok res3 => formatTraceChildren localeStr apiSet oracle calls (depth + 1) res3 r.2

/-- The `for (const call of trace.calls)` loop of `formatTrace`, accumulating
the children's output in order and threading the state. -/
def formatTraceChildren (localeStr : Option Int → String) (apiSet : Bool)
    (oracle : String → Option RawResponse) :
    List CallFrame → Nat → String → SysState → Except JsErr String × SysState
  | [], _, acc, st => (Except.ok acc, st)
  | c :: restCalls, depth, acc, st =>
    let rc := formatTrace localeStr apiSet oracle c depth st
    match rc.1 with
    | Except.error e => (Except.error e, rc.2)
    | Except.ok childStr =>
      formatTraceChildren localeStr apiSet oracle restCalls depth (acc ++ childStr) rc.2

end

/-- `formatCallTrace` (helpers.ts 932–1011).  `floatStr` renders the
floating-point `Number(valueInWei)/1e18` display, `localeStr` renders
`toLocaleString`; both are parameters because their outputs are not fixed by
the language, and no claim depends on them.  Accessing `txInfo.to.toLowerCase()`
when `to` is absent throws a `TypeError`; `BigInt` on a malformed `value`
throws a `SyntaxError`. -/
def formatCallTrace (floatStr : Int → String) (localeStr : Option Int → String)
    (apiSet : Bool) (oracle : String → Option RawResponse)
    (trace : CallFrame) (txInfo : TxInfo) (s : SysState) :
    Except JsErr String × SysState :=
  let output := "\nüîç TRANSACTION TRACE\n\n"
  let output := output ++ "Transaction: " ++ txInfo.hash ++ "\n"
  let output := output ++ "From: " ++ jsToLower txInfo.fromAddr ++ "\n"
  match txInfo.toAddr with
  | none => (Except.error JsErr.typeError, s)
  | some toA =>
    let output := output ++ "To: " ++ jsToLower toA ++ "\n"
    match jsBigInt (jsOrStr txInfo.value "0") with
    | none => (Except.error JsErr.syntaxError, s)
    | some valueInWei =>
      let output := output ++ "Value: " ++ intToDecStr valueInWei ++ " wei (" ++
        floatStr valueInWei ++ " ETH)\n"
      let output := output ++ "Gas Limit: " ++ localeStr (jsParseIntAuto txInfo.gas) ++ "\n"
      let output := output ++ "Gas Price: " ++ localeStr (jsParseIntAuto txInfo.gasPrice) ++
        " wei\n\n"
      let r1 := fetchContractData apiSet oracle toA s
      let r2 := decodeFunctionCall apiSet oracle txInfo.input toA false r1.2
      let initialFunc := formatFunctionCallWithArgs r2.1
      let output := output ++ "Initial Call: " ++ initialFunc ++ "\n\n"
      let output := output ++ "üìã EXECUTION TRACE:\n\n"
      let rt := formatTrace localeStr apiSet oracle trace 0 r2.2
      match rt.1 with
      | Except.ok t => (Except.ok (output ++ t), rt.2)
      | Except.error e => (Except.error e, rt.2)

/-! ## Raw-opcode formatting (`formatRawTrace`, helpers.ts 1041–1132) -/

/-- One `structLogs` entry: `{pc, op, gas, gasCost, depth, stack?, storage?}`.
`stack = some []` and `stack = none` are distinguished (an empty array is
truthy but fails the `length > 0` check); `storage` being present is truthy
even when empty. -/
structure StructLog where
  pc : Int
  op : String
  gas : Int
  gasCost : Option Int
  depth : Nat
  stack : Option (List String)
  storage : Option (List (String × String))
deriving DecidableEq, Repr

/-- The default/struct-log tracer result: `structLogs` and a top-level `gas`. -/
structure RawTrace where
  structLogs : Option (List StructLog)
  gas : Option Int
deriving DecidableEq, Repr

/-- The opcodes of the `includes` filter (helpers.ts 1085–1099). -/
def interestingOps : List String :=
  ["CALL", "STATICCALL", "DELEGATECALL", "CREATE", "REVERT", "RETURN", "SELFDESTRUCT",
   "LOG0", "LOG1", "LOG2", "LOG3", "LOG4"]

/-- The opcodes whose stack tail is shown (helpers.ts 1106). -/
def callLikeOps : List String :=
  ["CALL", "STATICCALL", "DELEGATECALL", "CREATE", "REVERT"]

/-- One fragment appended by the opcode loop of `formatRawTrace`: either the
`[pc] OP (gas: a ‚Üí b)` line for an emitted entry, its optional stack or
storage companion line, or the single truncation notice. -/
inductive RawChunk where
  | opLine (indent : Nat) (pc : Int) (op : String) (gasBefore gasAfter : Int)
  | stackLine (indent : Nat) (shown : List String)
  | storageLine (indent : Nat) (storage : List (String × String))
  | truncNote (shown total : Nat)
deriving DecidableEq, Repr

/-- The conditional `Stack:` companion line of one emitted entry (helpers.ts
1105–1111): shown when the opcode is call-like and the stack is a non-empty
array; it holds the last four stack words. -/
def stackChunk (log : StructLog) : List RawChunk :=
  match log.stack with
  | some st =>
    if log.op ∈ callLikeOps ∧ st ≠ [] then
      [RawChunk.stackLine log.depth (jsSliceList st (-4) st.length)]
    else []
  | none => []

/-- The conditional `Storage:` companion line (helpers.ts 1114–1116): shown
whenever the entry carries a storage snapshot. -/
def storageChunk (log : StructLog) : List RawChunk :=
  match log.storage with
  | some st => [RawChunk.storageLine log.depth st]
  | none => []

/-- The opcode loop of `formatRawTrace` (helpers.ts 1072–1121) as the ordered
list of appended fragments.  `total` is `trace.structLogs.length`, `lastDepth`
starts at `0`, `ops` at `0`; the cap `maxOps = 300`. -/
def rawTraceLoop (total : Nat) : List StructLog → Nat → Nat → List RawChunk
  | [], _, _ => []
  | log :: rest, lastDepth, ops =>
    if 300 ≤ ops then [RawChunk.truncNote 300 total]
    else if log.depth ≠ lastDepth ∨ log.op ∈ interestingOps then
      ([RawChunk.opLine log.depth log.pc log.op log.gas
          (log.gas - (log.gasCost.getD 0))] ++
        stackChunk log ++ storageChunk log) ++
        rawTraceLoop total rest log.depth (ops + 1)
    else rawTraceLoop total rest lastDepth ops

/-- The chunk list the opcode loop emits for a given `structLogs` list. -/
def rawTraceChunks (logs : List StructLog) : List RawChunk :=
  rawTraceLoop logs.length logs 0 0

/-- Rendering of one fragment, exactly as the source appends it. -/
def renderChunk : RawChunk → String
  | RawChunk.opLine ind pc op g1 g2 =>
    strRepeat "  " ind ++ "[" ++ intToDecStr pc ++ "] " ++ op ++ " (gas: " ++
      intToDecStr g1 ++ " ‚Üí " ++ intToDecStr g2 ++ ")\n"
  | RawChunk.stackLine ind shown =>
    strRepeat "  " ind ++ "  Stack: " ++ joinSep ", " shown ++ "\n"
  | RawChunk.storageLine ind st =>
    strRepeat "  " ind ++ "  Storage: " ++ jsonStringifyStrObj st ++ "\n"
  | RawChunk.truncNote shown total =>
    "\n... trace truncated (showing " ++ natToDecStr shown ++ " of " ++ natToDecStr total ++
      " operations) ...\n"

/-- `formatRawTrace` (helpers.ts 1041–1132).  Header, top-level call decode
(only when `input` has at least 10 characters), then the capped opcode loop,
then the gas summary.  Never throws. -/
def formatRawTrace (apiSet : Bool) (oracle : String → Option RawResponse)
    (trace : RawTrace) (txInfo : TxInfo) (s : SysState) : String × SysState :=
  let output := "\nüîç TRANSACTION TRACE\n\n"
  let output := output ++ "Transaction: " ++ txInfo.hash ++ "\n"
  let output := output ++ "From: " ++ txInfo.fromAddr ++ "\n"
  let output := output ++ "To: " ++ jsOrStr txInfo.toAddr "Contract Creation" ++ "\n"
  let output := output ++ "Value: " ++
    numToString (parseIntRadix16 (jsOrStr txInfo.value "0")) ++ " wei\n"
  let output := output ++ "Gas Limit: " ++ numToString (parseIntRadix16 txInfo.gas) ++ "\n"
  let output := output ++ "Gas Price: " ++ numToString (parseIntRadix16 txInfo.gasPrice) ++
    " wei\n\n"
  let r1 : String × SysState :=
    if 10 ≤ txInfo.input.data.length then
      let rc := decodeFunctionCall apiSet oracle txInfo.input (jsOrStr txInfo.toAddr "") false s
      let out2 := output ++ "Function: " ++ rc.1.signature ++ "\n"
      let out2 := out2 ++
        (if rc.1.args ≠ [] then
          "Parameters:\n" ++ strConcat (rc.1.args.map (fun arg =>
            "  " ++ arg.name ++ ": " ++ jsDisplay arg.value ++ " (" ++ arg.type ++ ")\n"))
         else "")
      (out2 ++ "\n", rc.2)
    else (output, s)
  let output := r1.1 ++ "üìã VM EXECUTION TRACE:\n\n"
  let output := output ++
    (match trace.structLogs with
     | some logs => strConcat ((rawTraceChunks logs).map renderChunk)
     | none => "Raw trace data not available or in unexpected format.\n")
  let output := output ++
    (match trace.gas with
     | some g => "\nGas used: " ++ intToDecStr g ++ "\n"
     | none => "")
  (output, r1.2)

/-! ## Reference decoders written from the specification's words (claim C5) -/

/-- Written from the spec's words (§4.2): one 64-hex-char word per declared
top-level parameter, assigned positionally; `address` → last 20 bytes,
`uint*`/`int*` → big-integer decimal (a malformed word decodes to `0`),
`bool` → last nibble `= 1`, `bytes<N>` → first `N` bytes, and any other type
(dynamic arrays, strings, dynamic bytes, tuples) → the raw word as hex.
Details the spec leaves open (default parameter names, the `bytes` size
fallback of 32) follow the source so that the comparison isolates what the
spec does specify. -/
def decodeParametersSpec (data : String) (types : List AbiParam) : List DecodedParam :=
  let data2 := if strStartsWith data "0x" then jsSliceFrom data 2 else data
  types.mapIdx (fun index param =>
    let name := if param.name = "" then "param" ++ natToDecStr index else param.name
    let word := String.mk ((data2.data.drop (64 * index)).take 64)
    if param.type = "address" then
      { name := name, value := JsValue.str ("0x" ++ strLastN word 40), type := param.type }
    else if (strStartsWith param.type "uint" ∨ strStartsWith param.type "int") ∧
        ¬ strEndsWith param.type "[]" then
      match jsBigIntHexTail word with
      | some n => { name := name, value := JsValue.str (natToDecStr n), type := param.type }
      | none => { name := name, value := JsValue.str "0", type := param.type }
    else if param.type = "bool" then
      { name := name, value := JsValue.bool (strLastN word 1 == "1"), type := param.type }
    else if strStartsWith param.type "bytes" then
      let size : Int :=
        match jsParseIntAuto (jsSliceFrom param.type 5) with
        | some n => if n = 0 then 32 else n
        | none => 32
      { name := name, value := JsValue.str ("0x" ++ jsSlice word 0 (size * 2)),
        type := param.type }
    else
      { name := name, value := JsValue.str ("0x" ++ word), type := param.type })

/-- The reference decoder amended to what the code actually does (claim C5):
identical to `decodeParametersSpec` except that the decimal branch is taken
exactly for the types whose name starts with `uint` (so `int*` falls through
to the raw-hex bucket, and `uint...[]` array types are decoded as the decimal
of their offset word). -/
def decodeParametersSpecAmended (data : String) (types : List AbiParam) : List DecodedParam :=
  let data2 := if strStartsWith data "0x" then jsSliceFrom data 2 else data
  types.mapIdx (fun index param =>
    let name := if param.name = "" then "param" ++ natToDecStr index else param.name
    let word := String.mk ((data2.data.drop (64 * index)).take 64)
    if param.type = "address" then
      { name := name, value := JsValue.str ("0x" ++ strLastN word 40), type := param.type }
    else if strStartsWith param.type "uint" then
      match jsBigIntHexTail word with
      | some n => { name := name, value := JsValue.str (natToDecStr n), type := param.type }
      | none => { name := name, value := JsValue.str "0", type := param.type }
    else if param.type = "bool" then
      { name := name, value := JsValue.bool (strLastN word 1 == "1"), type := param.type }
    else if strStartsWith param.type "bytes" then
      let size : Int :=
        match jsParseIntAuto (jsSliceFrom param.type 5) with
        | some n => if n = 0 then 32 else n
        | none => 32
      { name := name, value := JsValue.str ("0x" ++ jsSlice word 0 (size * 2)),
        type := param.type }
    else
      { name := name, value := JsValue.str ("0x" ++ word), type := param.type })

/-! ## Invariant and reachability definitions -/

/-- Lower-case hex digit, as produced by `toString(16)`. -/
def isLowerHexDigit (c : Char) : Bool :=
  ('0' ≤ c ∧ c ≤ '9') ∨ ('a' ≤ c ∧ c ≤ 'f')

/-- The cache discipline invariant: no address is fetched twice, every
fetched address has a cache entry (positive or negative), and every key ever
used on the contract-metadata cache is lower-cased. -/
def cacheInv (s : SysState) : Prop :=
  s.fetchLog.Nodup ∧
  (∀ a ∈ s.fetchLog, (objGet s.contractCache a).isSome) ∧
  (∀ k ∈ s.contractKeyLog, jsToLower k = k)

/-- The states reachable from process start through the subsystem's exported
operations (with arbitrary arguments, oracles and rendering parameters at
each step). -/
inductive Reachable (apiSet : Bool) : SysState → Prop where
  | init : Reachable apiSet initialState
  | fetchStep (s : SysState) (o : String → Option RawResponse) (a : String) :
      Reachable apiSet s → Reachable apiSet (fetchContractData apiSet o a s).2
  | implStep (s : SysState) (o : String → Option RawResponse) (p : String) :
      Reachable apiSet s → Reachable apiSet (getImplementationAddress apiSet o p s).2
  | decodeCallStep (s : SysState) (o : String → Option RawResponse) (cd a : String) (d : Bool) :
      Reachable apiSet s → Reachable apiSet (decodeFunctionCall apiSet o cd a d s).2
  | decodeOutputStep (s : SysState) (o : String → Option RawResponse) (od : String)
      (sel : Option String) (a : String) :
      Reachable apiSet s → Reachable apiSet (decodeFunctionOutput apiSet o od sel a s).2
  | callTraceStep (s : SysState) (fS : Int → String) (lS : Option Int → String)
      (o : String → Option RawResponse) (tr : CallFrame) (tx : TxInfo) :
      Reachable apiSet s → Reachable apiSet (formatCallTrace fS lS apiSet o tr tx s).2
  | rawTraceStep (s : SysState) (o : String → Option RawResponse) (tr : RawTrace) (tx : TxInfo) :
      Reachable apiSet s → Reachable apiSet (formatRawTrace apiSet o tr tx s).2

/-! ## Concrete fixtures used by counterexamples and witnesses -/

/-- The ERC-20 `transfer` ABI entry. -/
def transferEntry : AbiEntry :=
  { type := "function", name := "transfer",
    inputs := [{ name := "to", type := "address" }, { name := "amount", type := "uint256" }],
    outputs := [{ name := "", type := "bool" }] }

/-- The ERC-20 `Transfer` event ABI entry. -/
def transferEvent : AbiEntry :=
  { type := "event", name := "Transfer",
    inputs := [{ name := "from", type := "address" }, { name := "to", type := "address" },
               { name := "value", type := "uint256" }],
    outputs := [] }

def proxyAddr : String := "0xaaaaaaaaaaaaaaaaaaaaaaaaaaaaaaaaaaaaaaaa"

def implAddr : String := "0xbbbbbbbbbbbbbbbbbbbbbbbbbbbbbbbbbbbbbbbb"

/-- The ERC-20 `balanceOf` ABI entry (selector `0x70a08231`). -/
def balanceOfEntry : AbiEntry :=
  { type := "function", name := "balanceOf",
    inputs := [{ name := "owner", type := "address" }],
    outputs := [{ name := "", type := "uint256" }] }

/-- A metadata service where the proxy's raw response carries an
`implementations` list naming `implAddr`, and `implAddr`'s response carries
an ABI containing `balanceOf`. -/
def oracleC1 : String → Option RawResponse := fun a =>
  if a = proxyAddr then
    some { abi := some (AbiJson.arr []), result := none, resultParsed := none,
           name := some "Proxy", contractName := none, source_code := none,
           sourceCodeUpper := none, implementations := some [implAddr] }
  else if a = implAddr then
    some { abi := some (AbiJson.arr [balanceOfEntry]), result := none, resultParsed := none,
           name := some "Impl", contractName := none, source_code := none,
           sourceCodeUpper := none, implementations := none }
  else none

def c3Addr : String := "0xcccccccccccccccccccccccccccccccccccccccc"

/-- A function whose declared output is a dynamic `address[]`. -/
def c3Entry : AbiEntry :=
  { type := "function", name := "getAddrs", inputs := [],
    outputs := [{ name := "addrs", type := "address[]" }] }

def c3Data : ContractData :=
  { name := "C3", abi := [c3Entry], functionsBySelector := [("0xaaaaaaaa", c3Entry)],
    eventsByTopic := [], source := none, implementations := none }

/-- A state whose metadata cache already resolves `c3Addr` to `c3Data`. -/
def c3State : SysState := { initialState with contractCache := [(c3Addr, some c3Data)] }

/-- The canonical ABI encoding of the single-output value `["0xdddd…dd"]` for
an `address[]` output: offset word `0x20`, length word `1`, one element. -/
def c3Output : String :=
  "0x" ++ "0000000000000000000000000000000000000000000000000000000000000020"
     ++ "0000000000000000000000000000000000000000000000000000000000000001"
     ++ "000000000000000000000000dddddddddddddddddddddddddddddddddddddddd"

/-- A 32-byte word holding the value 42. -/
def word42 : String := "000000000000000000000000000000000000000000000000000000000000002a"

/-- An arbitrary call frame (everything absent except `to`). -/
def emptyFrame : CallFrame := CallFrame.mk none none "0x" none none none none none []

/-- A transaction summary with the optional `to` field absent (a contract
creation transaction), all other fields well-formed hex. -/
def txNoTo : TxInfo :=
  { hash := "0xhash", fromAddr := "0xF", toAddr := none, value := some "0x0",
    gas := "0x5208", gasPrice := "0x1", input := "0x" }

/-- The zero address with an upper-case `X`, a letter-case variant that the
zero-address guard (`address === '0x0000…'`) does not recognise. -/
def zeroUpper : String := "0X0000000000000000000000000000000000000000"

/-- A metadata service that knows a verified contract at the zero address. -/
def oracleC6 : String → Option RawResponse := fun a =>
  if a = zeroAddress then
    some { abi := some (AbiJson.arr []), result := none, resultParsed := none,
           name := some "Z", contractName := none, source_code := none,
           sourceCodeUpper := none, implementations := none }
  else none

/-- The state after fetching the zero address through its upper-case variant. -/
def c6State1 : SysState := (fetchContractData true oracleC6 zeroUpper initialState).2

/-- The metadata `oracleC6`'s response processes to. -/
def c6DataZ : ContractData :=
  { name := "Z", abi := [], functionsBySelector := [], eventsByTopic := [], source := none,
    implementations := none }

/-- A mixed-case address, as a caller may pass it. -/
def c8Addr : String := "0xAbCdAbCdAbCdAbCdAbCdAbCdAbCdAbCdAbCdAbCd"

/-- One interesting-opcode struct-log entry. -/
def c7Log : StructLog :=
  { pc := 0, op := "CALL", gas := 100, gasCost := some 3, depth := 1, stack := none,
    storage := none }

/-- 301 interesting entries. -/
def c7Logs : List StructLog := List.replicate 301 c7Log

/-- Recogniser for the decoded-opcode lines among the emitted fragments. -/
def isOpLine : RawChunk → Bool
  | RawChunk.opLine _ _ _ _ _ => true
  | _ => false

/-- Recogniser for the truncation notice. -/
def isTruncNote : RawChunk → Bool
  | RawChunk.truncNote _ _ => true
  | _ => false

/-! ## Basic lemmas about the map model and lower-casing -/

theorem objGet_objSet_self {α : Type} (m : List (String × α)) (k : String) (v : α) :
    objGet (objSet m k v) k = some v := by
  induction m with
  | nil => simp [objGet, objSet]
  | cons p rest ih =>
    by_cases h : p.1 = k
    · simp [objSet, h, objGet]
    · simp only [objSet, if_neg h, objGet]
      exact ih

theorem objGet_objSet_ne {α : Type} (m : List (String × α)) (k k' : String) (v : α)
    (h : k' ≠ k) : objGet (objSet m k v) k' = objGet m k' := by
  induction m with
  | nil => simp [objSet, objGet, Ne.symm h]
  | cons p rest ih =>
    by_cases hp : p.1 = k
    · simp [objSet, hp, objGet, Ne.symm h]
    · simp only [objSet, if_neg hp, objGet]
      rw [ih]

theorem toNat_ofNat_valid (n : Nat) (h : n < 55296) : (Char.ofNat n).toNat = n := by
  unfold Char.ofNat
  split
  · rfl
  · rename_i hv
    exact absurd (Or.inl h) hv

theorem jsToLowerChar_no_upper (c : Char) :
    ¬('A' ≤ jsToLowerChar c ∧ jsToLowerChar c ≤ 'Z') := by
  unfold jsToLowerChar
  by_cases h : 'A' ≤ c ∧ c ≤ 'Z'
  · rw [if_pos h]
    have h1 : 65 ≤ c.toNat := h.1
    have h2 : c.toNat ≤ 90 := h.2
    have hv : c.toNat + 32 < 55296 := by omega
    intro hcon
    have h3 : 65 ≤ (Char.ofNat (c.toNat + 32)).toNat := hcon.1
    have h4 : (Char.ofNat (c.toNat + 32)).toNat ≤ 90 := hcon.2
    rw [toNat_ofNat_valid _ hv] at h4
    omega
  · rw [if_neg h]
    exact h

theorem jsToLowerChar_idem (c : Char) :
    jsToLowerChar (jsToLowerChar c) = jsToLowerChar c := by
  have h := jsToLowerChar_no_upper c
  conv_lhs => rw [jsToLowerChar]
  rw [if_neg h]

theorem jsToLower_idem (s : String) : jsToLower (jsToLower s) = jsToLower s := by
  unfold jsToLower
  simp only [List.map_map]
  congr 1
  exact List.map_congr_left (fun a _ => jsToLowerChar_idem a)

/-! ## Claim C10: short calldata early exit -/

/-- **C10.** For every `callData` shorter than 10 characters (the empty
string and bare `0x` included), `decodeFunctionCall` returns the fixed
`{name: 'unknown', signature: 'unknown()', args: []}` result immediately and
leaves the state — caches, fetch log, and key logs — untouched, regardless of
the address, the delegate flag, the oracle and the configuration. -/
theorem c10_short_calldata_early_exit (apiSet : Bool) (oracle : String → Option RawResponse)
    (callData address : String) (isDelegate : Bool) (s : SysState)
    (h : callData.data.length < 10) :
    decodeFunctionCall apiSet oracle callData address isDelegate s = (unknownCall, s) := by
  unfold decodeFunctionCall
  rw [if_pos h]

/-- Witness for C10 at `callData = "0x"`. -/
theorem c10_witness :
    decodeFunctionCall true (fun _ => none) "0x" proxyAddr true initialState =
      (unknownCall, initialState) :=
  c10_short_calldata_early_exit true (fun _ => none) "0x" proxyAddr true initialState
    (by decide)

/-! ## Claim C4: `formatCallTrace` throws on a summary without `to` -/

/-- **C4 (code bug).** `formatCallTrace` evaluates `txInfo.to.toLowerCase()`
unconditionally while building the header, so a transaction summary without a
`to` field — allowed by the external interface (`to?`) and handled by
`formatRawTrace` via `txInfo.to || 'Contract Creation'` — makes it throw a
`TypeError` instead of producing a report. -/
theorem c4_formatCallTrace_throws_on_missing_to :
    formatCallTrace (fun _ => "") (fun _ => "") true (fun _ => none) emptyFrame txNoTo
      initialState = (Except.error JsErr.typeError, initialState) := by
  rfl

/-! ## Claim C1: the `implementations` field never reaches the cache -/

/-- **C1 (code bug).** A DELEGATECALL decode against a proxy whose raw
metadata response carries an `implementations` list still falls back to the
bare selector: `fetchContractData` drops the `implementations` field when it
builds the cached object (helpers.ts 594–600), so `getImplementationAddress`
never finds one and the implementation ABI — which does know the selector —
is never consulted.  The conjuncts: (1) the raw proxy response does carry the
implementations list; (2) the implementation's ABI resolves the call's
selector to `balanceOf`; (3) the decode nevertheless returns the raw-selector
fallback. -/
theorem c1_delegatecall_ignores_implementations :
    (oracleC1 proxyAddr).map RawResponse.implementations = some (some [implAddr]) ∧
    (getFunctionSelector balanceOfEntry initialSelectorCache).1 = "0x70a08231" ∧
    (decodeFunctionCall true oracleC1 "0x70a08231" proxyAddr true initialState).1 =
      { name := "0x70a08231", signature := "0x70a08231", args := [],
        rawSelector := some "0x70a08231", contractName := none } := by
  refine ⟨by decide, by rfl, by decide⟩

deriving instance DecidableEq for Except

/-! ## Claim C3: dynamic-array output decoding reads the wrong buffer -/

/-- **C3 (code bug).** Decoding the canonical `address[]` output
`["0xdddd…dd"]` yields the empty array: the code reads the element count from
`arrayData` — the parameter's own 64-character word — at hex offset 64, which
is past that word's end, so `parseInt('', 16)` is `NaN` and the element loop
never runs.  The claim expects the count (1) and the elements to be read from
the output data region. -/
theorem c3_array_output_decodes_empty :
    (decodeFunctionOutput true (fun _ => none) c3Output (some "0xaaaaaaaa") c3Addr c3State).1 =
      Except.ok (some [("addrs", JsValue.arr [])]) ∧
    (decodeFunctionOutput true (fun _ => none) c3Output (some "0xaaaaaaaa") c3Addr c3State).1 ≠
      Except.ok (some [("addrs",
        JsValue.arr ["0xdddddddddddddddddddddddddddddddddddddddd"])]) := by
  refine ⟨by decide, by decide⟩

/-! ## Claim C2: event topics are 10 characters, not 66 -/

/-- **C2 (counterexample).** The topic of `Transfer(address,address,uint256)`
is 10 characters long, not the 66-character 32-byte hash the claim states:
`getEventTopic` hashes with the 32-bit `simpleHash`, not keccak-256. -/
theorem c2_topic_not_66_chars :
    (getEventTopic transferEvent).data.length = 10 ∧
    (getEventTopic transferEvent).data.length ≠ 66 := by
  refine ⟨by decide, by decide⟩

/-! ## Claim C5: `int*` does not decode as decimal -/

/-- **C5 (counterexample).** On a single `int256` parameter holding 42 the
code returns the raw word as hex while the spec's reference decoder returns
the decimal string `"42"`: the code has no `int*` branch (`type.startsWith
('uint')` misses it), so `int*` falls to the raw-hex bucket. -/
theorem c5_int_decodes_as_raw_hex :
    decodeParameters word42 [{ name := "x", type := "int256" }] ≠
      decodeParametersSpec word42 [{ name := "x", type := "int256" }] ∧
    decodeParameters word42 [{ name := "x", type := "int256" }] =
      [{ name := "x",
         value := JsValue.str
           "0x000000000000000000000000000000000000000000000000000000000000002a",
         type := "int256" }] ∧
    decodeParametersSpec word42 [{ name := "x", type := "int256" }] =
      [{ name := "x", value := JsValue.str "42", type := "int256" }] := by
  refine ⟨by decide, by decide, by decide⟩

/-! ## Claim C6: the zero-address guard bypasses the cache -/

/-- **C6 (counterexample).** Fetching the zero address through the
upper-case-`X` variant `0X0000…` caches positive metadata under the
lower-cased key, yet a second call naming the same address in lower case
returns `null` without consulting the cache: the `address === '0x0000…'`
guard runs before lower-casing, so the two calls do not agree on the cached
value although only letter case differs. -/
theorem c6_zero_address_bypasses_cache :
    jsToLower zeroUpper = zeroAddress ∧
    objGet c6State1.contractCache zeroAddress = some (some c6DataZ) ∧
    (fetchContractData true oracleC6 zeroAddress c6State1).1 = none ∧
    (fetchContractData true oracleC6 zeroUpper initialState).1 = some c6DataZ := by
  refine ⟨by decide, by decide, by decide, by decide⟩

/-! ## Claim C8: the implementation cache is probed with the raw key -/

/-- **C8 (counterexample).** A delegate-call decode with a mixed-case address
probes the implementation-address cache with that raw, non-lower-cased
string: `getImplementationAddress` uses `proxyAddress` exactly as supplied. -/
theorem c8_impl_cache_key_not_lowercased :
    c8Addr ∈ (decodeFunctionCall true (fun _ => none) "0x12345678" c8Addr true
        initialState).2.implKeyLog ∧
    jsToLower c8Addr ≠ c8Addr := by
  refine ⟨by decide, by decide⟩

/-! ## Claim C9: selector computation and registration -/

/-- **C9.** `getFunctionSelector` builds the canonical signature
`name(type1,…,typeN)` from the declared input types in order, hashes it with
keccak-256 and takes the first 4 bytes (`slice(0, 10)` of the `0x`-prefixed
digest), registering the signature in the selector cache under the computed
selector; in particular `transfer(address,uint256)` yields `0xa9059cbb`, and
the signature is found in the cache under that selector afterwards. -/
theorem c9_selector_pipeline :
    (∀ (f : AbiEntry) (cache : List (String × String)),
      getFunctionSelector f cache =
        (jsSlice (keccak256 (getFunctionSignature f)) 0 10,
         objSet cache (jsSlice (keccak256 (getFunctionSignature f)) 0 10)
           (getFunctionSignature f))) ∧
    getFunctionSignature transferEntry = "transfer(address,uint256)" ∧
    (getFunctionSelector transferEntry initialSelectorCache).1 = "0xa9059cbb" ∧
    objGet (getFunctionSelector transferEntry initialSelectorCache).2 "0xa9059cbb" =
      some "transfer(address,uint256)" := by
  refine ⟨fun f cache => rfl, by decide, by rfl, by rfl⟩

/-! ## Claim C2 (amended): the topic is '0x' + 8 lower-case hex digits -/

theorem jsToInt32_bounds (n : Int) :
    -2147483648 ≤ jsToInt32 n ∧ jsToInt32 n < 2147483648 := by
  unfold jsToInt32
  have h1 : 0 ≤ n % 4294967296 := Int.emod_nonneg n (by norm_num)
  have h2 : n % 4294967296 < 4294967296 := Int.emod_lt_of_pos n (by norm_num)
  constructor <;> (simp only []; split <;> omega)

theorem simpleHashLoop_bounds (cs : List Char) (h0 : Int)
    (hl : -2147483648 ≤ h0) (hu : h0 < 2147483648) :
    -2147483648 ≤ simpleHashLoop cs h0 ∧ simpleHashLoop cs h0 < 2147483648 := by
  induction cs generalizing h0 with
  | nil => exact ⟨hl, hu⟩
  | cons c rest ih =>
    have hb := jsToInt32_bounds (jsToInt32 (h0 * 32) - h0 + c.toNat)
    exact ih _ hb.1 hb.2

theorem natToHexAux_length_le (fuel : Nat) :
    ∀ (n k : Nat), n < 16 ^ k → (natToHexAux fuel n).length ≤ k := by
  induction fuel with
  | zero => intro n k _; simp [natToHexAux]
  | succ fuel ih =>
    intro n k hk
    match n with
    | 0 => simp [natToHexAux]
    | m + 1 =>
      have hkpos : 0 < k := by
        by_contra hc
        have hk0 : k = 0 := by omega
        subst hk0
        simp at hk
      have hdiv : (m + 1) / 16 < 16 ^ (k - 1) := by
        have hpow : 16 * 16 ^ (k - 1) = 16 ^ k := by
          rw [← pow_succ']
          congr 1
          omega
        exact Nat.div_lt_of_lt_mul (by omega)
      have := ih ((m + 1) / 16) (k - 1) hdiv
      simp only [natToHexAux, List.length_append, List.length_cons, List.length_nil]
      omega

theorem natToHexStr_length_le (n k : Nat) (hn : n < 16 ^ k) (hk : 0 < k) :
    (natToHexStr n).data.length ≤ k := by
  unfold natToHexStr
  split
  · simpa using hk
  · exact natToHexAux_length_le n n k hn

theorem padStart_length (s : String) (len : Nat) (c : Char)
    (h : s.data.length ≤ len) : (padStart s len c).data.length = len := by
  unfold padStart
  show (List.replicate (len - s.data.length) c ++ s.data).length = len
  rw [List.length_append, List.length_replicate]
  omega

theorem simpleHash_length (str : String) : (simpleHash str).data.length = 8 := by
  unfold simpleHash
  apply padStart_length
  have hb := simpleHashLoop_bounds str.data 0 (by norm_num) (by norm_num)
  apply natToHexStr_length_le _ 8
  · have : (simpleHashLoop str.data 0).natAbs ≤ 2147483648 := by omega
    calc (simpleHashLoop str.data 0).natAbs ≤ 2147483648 := this
      _ < 16 ^ 8 := by norm_num
  · norm_num

theorem hexDigitChar_lower (n : Nat) (h : n < 16) :
    isLowerHexDigit (hexDigitChar n) = true := by
  interval_cases n <;> decide

theorem natToHexAux_chars (fuel : Nat) :
    ∀ (n : Nat), ∀ c ∈ natToHexAux fuel n, isLowerHexDigit c = true := by
  induction fuel with
  | zero => intro n c hc; simp [natToHexAux] at hc
  | succ fuel ih =>
    intro n c hc
    match n with
    | 0 => simp [natToHexAux] at hc
    | m + 1 =>
      simp only [natToHexAux, List.mem_append, List.mem_singleton] at hc
      rcases hc with hc | hc
      · exact ih _ c hc
      · subst hc
        exact hexDigitChar_lower _ (Nat.mod_lt _ (by norm_num))

theorem simpleHash_chars (str : String) :
    ∀ c ∈ (simpleHash str).data, isLowerHexDigit c = true := by
  unfold simpleHash padStart
  intro c hc
  simp only [String.mk] at hc
  rw [List.mem_append] at hc
  rcases hc with hc | hc
  · rw [List.eq_of_mem_replicate hc]
    decide
  · unfold natToHexStr at hc
    split at hc
    · simp at hc
      subst hc
      decide
    · exact natToHexAux_chars _ _ c hc

/-- **C2 (amended).** For every ABI event entry with a (truthy) name,
`getEventTopic` returns `'0x'` followed by exactly 8 lower-case hex digits —
the zero-padded base-16 rendering of the absolute value of the 32-bit
`simpleHash` of the canonical signature — a 10-character string, not a
32-byte (66-character) keccak topic. -/
theorem c2_topic_shape (e : AbiEntry) (h : e.name ≠ "") :
    (getEventTopic e).data.length = 10 ∧
    (getEventTopic e).data.take 2 = ['0', 'x'] ∧
    ∀ c ∈ (getEventTopic e).data.drop 2, isLowerHexDigit c = true := by
  unfold getEventTopic
  rw [if_neg h]
  have hdata : ("0x" ++ simpleHash (e.name ++ "(" ++
      joinSep "," (List.map (fun i => i.type) e.inputs) ++ ")")).data =
      '0' :: 'x' :: (simpleHash (e.name ++ "(" ++
      joinSep "," (List.map (fun i => i.type) e.inputs) ++ ")")).data := by
    rfl
  rw [hdata]
  refine ⟨?_, rfl, ?_⟩
  · show ('0' :: 'x' :: _).length = 10
    rw [List.length_cons, List.length_cons, simpleHash_length]
  · intro c hc
    simp only [List.drop_succ_cons, List.drop_zero] at hc
    exact simpleHash_chars _ c hc

/-- Witness for C2's amended claim at the `Transfer(address,address,uint256)`
event. -/
theorem c2_topic_shape_witness :
    (getEventTopic transferEvent).data.length = 10 ∧
    (getEventTopic transferEvent).data.take 2 = ['0', 'x'] :=
  ⟨(c2_topic_shape transferEvent (by decide)).1, (c2_topic_shape transferEvent (by decide)).2.1⟩

/-! ## Claim C5 (amended): the decoder equals the amended reference -/

theorem getD_map_mk (m : List (List Char)) (i : Nat) :
    (m.map String.mk).getD i "" = String.mk (m.getD i []) := by
  induction m generalizing i with
  | nil => cases i <;> rfl
  | cons x rest ih =>
    cases i with
    | zero => rfl
    | succ j =>
      simp only [List.map_cons, List.getD_cons_succ]
      exact ih j

theorem chunksOfAux_getD {α : Type} (n : Nat) (hn : 0 < n) :
    ∀ (fuel : Nat) (l : List α) (i : Nat), l.length ≤ fuel →
      (chunksOfAux n fuel l).getD i [] = (l.drop (n * i)).take n := by
  intro fuel
  induction fuel with
  | zero =>
    intro l i hl
    have hnil : l = [] := by
      cases l with
      | nil => rfl
      | cons a r => simp at hl
    subst hnil
    simp [chunksOfAux]
  | succ fuel ih =>
    intro l i hl
    cases l with
    | nil => simp [chunksOfAux]
    | cons a rest =>
      cases i with
      | zero => simp [chunksOfAux]
      | succ j =>
        simp only [chunksOfAux, List.getD_cons_succ]
        rw [ih ((a :: rest).drop n) j (by
          rw [List.length_drop]
          simp only [List.length_cons] at hl ⊢
          omega)]
        rw [List.drop_drop]
        congr 2
        ring

theorem chunk64_getD (l : List Char) (i : Nat) :
    ((chunksOf 64 l).map String.mk).getD i "" = String.mk ((l.drop (64 * i)).take 64) := by
  rw [getD_map_mk]
  congr 1
  unfold chunksOf
  rw [if_neg (by norm_num)]
  exact chunksOfAux_getD 64 (by norm_num) l.length l i (le_refl _)

theorem mapIdx_congr_fun {α β : Type} (l : List α) (f g : Nat → α → β)
    (h : ∀ i a, f i a = g i a) : l.mapIdx f = l.mapIdx g := by
  induction l generalizing f g with
  | nil => simp
  | cons x rest ih =>
    rw [List.mapIdx_cons, List.mapIdx_cons, h 0 x]
    congr 1
    exact ih _ _ (fun i a => h (i + 1) a)

/-- **C5 (amended).** `decodeParameters` coincides, on every input and type
list, with the reference word-aligned decoder amended in one point: the
decimal branch is taken exactly for types whose name starts with `uint`
(so `int*` types fall to the raw-hex bucket, and `uint…[]` array types are
decoded as the decimal of their offset word); everything else is as the spec
states — strip `0x`, one 64-hex-char word per parameter positionally,
`address` → last 20 bytes, `bool` → last nibble `= 1`, `bytes<N>` → first `N`
bytes, other types → the raw word as hex, malformed big-integer words decode
to `0`, and no input raises. -/
theorem c5_decodeParameters_eq_amended_reference (data : String) (types : List AbiParam) :
    decodeParameters data types = decodeParametersSpecAmended data types := by
  simp only [decodeParameters, decodeParametersSpecAmended]
  apply mapIdx_congr_fun
  intro i p
  simp only [decodeParamWord]
  rw [chunk64_getD]

/-! ## Claim C7: the raw-trace loop caps at 300 opcode lines -/

theorem countP_stackChunk (p : RawChunk → Bool)
    (hp : ∀ d sh, p (RawChunk.stackLine d sh) = false) (log : StructLog) :
    (stackChunk log).countP p = 0 := by
  rw [List.countP_eq_zero]
  intro a ha
  unfold stackChunk at ha
  cases hs : log.stack with
  | none => rw [hs] at ha; simp at ha
  | some st =>
    rw [hs] at ha
    dsimp only at ha
    by_cases hc : log.op ∈ callLikeOps ∧ st ≠ []
    · rw [if_pos hc] at ha
      simp only [List.mem_singleton] at ha
      subst ha
      simp [hp]
    · rw [if_neg hc] at ha
      simp at ha

theorem countP_storageChunk (p : RawChunk → Bool)
    (hp : ∀ d st, p (RawChunk.storageLine d st) = false) (log : StructLog) :
    (storageChunk log).countP p = 0 := by
  rw [List.countP_eq_zero]
  intro a ha
  unfold storageChunk at ha
  cases hs : log.storage with
  | none => rw [hs] at ha; simp at ha
  | some st =>
    rw [hs] at ha
    dsimp only at ha
    simp only [List.mem_singleton] at ha
    subst ha
    simp [hp]

theorem rawTraceLoop_cap (total : Nat) (logs : List StructLog) :
    ∀ (lastDepth ops : Nat),
      (rawTraceLoop total logs lastDepth ops).countP isOpLine ≤ 300 - ops := by
  induction logs with
  | nil => intro lastDepth ops; simp [rawTraceLoop]
  | cons log rest ih =>
    intro lastDepth ops
    simp only [rawTraceLoop]
    by_cases hcap : 300 ≤ ops
    · rw [if_pos hcap]
      simp [isOpLine]
    · rw [if_neg hcap]
      by_cases hcond : log.depth ≠ lastDepth ∨ log.op ∈ interestingOps
      · rw [if_pos hcond]
        have hrec := ih log.depth (ops + 1)
        rw [List.countP_append, List.countP_append, List.countP_append,
            countP_stackChunk isOpLine (fun _ _ => rfl) log,
            countP_storageChunk isOpLine (fun _ _ => rfl) log,
            List.countP_cons, List.countP_nil]
        norm_num [isOpLine]
        omega
      · rw [if_neg hcond]
        exact ih lastDepth ops

theorem rawTraceLoop_exact (total : Nat) (logs : List StructLog) :
    ∀ (lastDepth ops : Nat),
      (∀ l ∈ logs, l.op ∈ interestingOps) → ops ≤ 300 → logs.length + ops = 301 →
      (rawTraceLoop total logs lastDepth ops).countP isOpLine = 300 - ops ∧
      (rawTraceLoop total logs lastDepth ops).getLast? =
        some (RawChunk.truncNote 300 total) ∧
      (rawTraceLoop total logs lastDepth ops).countP isTruncNote = 1 := by
  induction logs with
  | nil =>
    intro lastDepth ops _ hops hlen
    simp at hlen
    omega
  | cons log rest ih =>
    intro lastDepth ops hint hops hlen
    simp only [rawTraceLoop]
    by_cases hcap : 300 ≤ ops
    · rw [if_pos hcap]
      have hops300 : ops = 300 := by omega
      subst hops300
      refine ⟨?_, rfl, ?_⟩
      · simp [isOpLine]
      · simp [isTruncNote]
    · rw [if_neg hcap]
      have hcond : log.depth ≠ lastDepth ∨ log.op ∈ interestingOps :=
        Or.inr (hint log (by simp))
      rw [if_pos hcond]
      have hlen' : rest.length + (ops + 1) = 301 := by
        simp only [List.length_cons] at hlen
        omega
      have hrec := ih log.depth (ops + 1) (fun l hl => hint l (by simp [hl])) (by omega) hlen'
      have hne : rawTraceLoop total rest log.depth (ops + 1) ≠ [] := by
        intro hnil
        rw [hnil] at hrec
        simp at hrec
      refine ⟨?_, ?_, ?_⟩
      · rw [List.countP_append, List.countP_append, List.countP_append,
            countP_stackChunk isOpLine (fun _ _ => rfl) log,
            countP_storageChunk isOpLine (fun _ _ => rfl) log,
            List.countP_cons, List.countP_nil]
        norm_num [isOpLine]
        omega
      · rw [List.getLast?_append_of_ne_nil _ hne]
        exact hrec.2.1
      · rw [List.countP_append, List.countP_append, List.countP_append,
            countP_stackChunk isTruncNote (fun _ _ => rfl) log,
            countP_storageChunk isTruncNote (fun _ _ => rfl) log,
            List.countP_cons, List.countP_nil]
        norm_num [isTruncNote]
        omega

/-- **C7.** Given 301 struct-log entries every one of which carries an
interesting opcode, the raw-trace loop of `formatRawTrace` emits exactly 300
decoded opcode lines, its final fragment is the single truncation notice
naming 301 as the total, that notice occurs exactly once, and for every input
log whatsoever the number of emitted opcode lines never exceeds 300. -/
theorem c7_raw_trace_bounded (logs : List StructLog)
    (hlen : logs.length = 301) (hint : ∀ l ∈ logs, l.op ∈ interestingOps) :
    (rawTraceChunks logs).countP isOpLine = 300 ∧
    (rawTraceChunks logs).getLast? = some (RawChunk.truncNote 300 301) ∧
    (rawTraceChunks logs).countP isTruncNote = 1 ∧
    ∀ (other : List StructLog), (rawTraceChunks other).countP isOpLine ≤ 300 := by
  have h := rawTraceLoop_exact logs.length logs 0 0 hint (by omega) (by omega)
  rw [hlen] at h
  refine ⟨?_, ?_, ?_, ?_⟩
  · simpa [rawTraceChunks, hlen] using h.1
  · simpa [rawTraceChunks, hlen] using h.2.1
  · simpa [rawTraceChunks, hlen] using h.2.2
  · intro other
    have hc := rawTraceLoop_cap other.length other 0 0
    simpa [rawTraceChunks] using hc

/-- Witness for C7 at 301 copies of an interesting `CALL` entry. -/
theorem c7_witness :
    (rawTraceChunks c7Logs).countP isOpLine = 300 ∧
    (rawTraceChunks c7Logs).getLast? = some (RawChunk.truncNote 300 301) :=
  ⟨(c7_raw_trace_bounded c7Logs (by simp [c7Logs]) (fun l hl => by
      rw [List.eq_of_mem_replicate hl]; decide)).1,
   (c7_raw_trace_bounded c7Logs (by simp [c7Logs]) (fun l hl => by
      rw [List.eq_of_mem_replicate hl]; decide)).2.1⟩

/-! ## Invariant preservation through every operation -/

theorem cacheInv_keyLog2 (s : SysState) (x : String) (hx : jsToLower x = x)
    (h : cacheInv s) :
    cacheInv { s with contractKeyLog := s.contractKeyLog ++ [x] ++ [x] } := by
  obtain ⟨h1, h2, h3⟩ := h
  refine ⟨h1, h2, ?_⟩
  intro k hk
  simp only [List.append_assoc, List.mem_append, List.mem_singleton] at hk
  rcases hk with hk | hk | hk
  · exact h3 k hk
  · subst hk; exact hx
  · subst hk; exact hx

theorem cacheInv_store (s : SysState) (x : String) (v : Option ContractData)
    (sc : List (String × String)) (hx : jsToLower x = x)
    (hmiss : objGet s.contractCache x = none) (h : cacheInv s) :
    cacheInv { contractCache := objSet s.contractCache x v,
               implementationCache := s.implementationCache,
               selectorCache := sc,
               fetchLog := s.fetchLog ++ [x],
               contractKeyLog := s.contractKeyLog ++ [x] ++ [x],
               implKeyLog := s.implKeyLog } := by
  obtain ⟨h1, h2, h3⟩ := h
  have hxnot : x ∉ s.fetchLog := by
    intro hmem
    have hs := h2 x hmem
    rw [hmiss] at hs
    simp at hs
  refine ⟨?_, ?_, ?_⟩ <;> dsimp only
  · rw [List.nodup_append]
    exact ⟨h1, List.nodup_singleton x, fun a ha hax => by
      rw [List.mem_singleton] at hax
      subst hax
      exact hxnot ha⟩
  · intro f hfmem
    rcases List.mem_append.mp hfmem with hf1 | hf1
    · have hne : f ≠ x := fun he => hxnot (he ▸ hf1)
      rw [objGet_objSet_ne _ _ _ _ hne]
      exact h2 f hf1
    · rw [List.mem_singleton] at hf1
      subst hf1
      rw [objGet_objSet_self]
      rfl
  · intro k hk
    simp only [List.append_assoc, List.mem_append, List.mem_singleton] at hk
    rcases hk with hk | hk | hk
    · exact h3 k hk
    · subst hk; exact hx
    · subst hk; exact hx

theorem cacheInv_fetchContractData (apiSet : Bool) (o : String → Option RawResponse)
    (addr : String) (s : SysState) (h : cacheInv s) :
    cacheInv (fetchContractData apiSet o addr s).2 := by
  simp only [fetchContractData]
  split
  · exact h
  split
  · exact h
  split
  · exact h
  split
  · exact cacheInv_keyLog2 s (jsToLower addr) (jsToLower_idem addr) h
  · rename_i hmiss
    split
    · exact cacheInv_store s (jsToLower addr) none s.selectorCache (jsToLower_idem addr)
        hmiss h
    · split
      · exact cacheInv_store s (jsToLower addr) _ _ (jsToLower_idem addr) hmiss h
      · exact cacheInv_store s (jsToLower addr) none _ (jsToLower_idem addr) hmiss h

theorem cacheInv_getImplementationAddress (apiSet : Bool) (o : String → Option RawResponse)
    (p : String) (s : SysState) (h : cacheInv s) :
    cacheInv (getImplementationAddress apiSet o p s).2 := by
  have h1 : cacheInv { s with implKeyLog := s.implKeyLog ++ [p] } := ⟨h.1, h.2.1, h.2.2⟩
  simp only [getImplementationAddress]
  split
  · exact ⟨h.1, h.2.1, h.2.2⟩
  · have h2 := cacheInv_fetchContractData apiSet o p _ h1
    split
    · exact h2
    · split
      · exact ⟨h2.1, h2.2.1, h2.2.2⟩
      · exact h2

theorem cacheInv_resolveDelegate (apiSet : Bool) (o : String → Option RawResponse)
    (a : String) (d : Bool) (r0 : Option ContractData × SysState) (h : cacheInv r0.2) :
    cacheInv (resolveDelegate apiSet o a d r0).2 := by
  simp only [resolveDelegate]
  split
  · have h1 := cacheInv_getImplementationAddress apiSet o a r0.2 h
    split
    · rename_i impl heq
      split
      · exact h1
      · have h2 := cacheInv_fetchContractData apiSet o impl _ h1
        split
        · exact h2
        · exact h2
    · exact h1
  · exact h

theorem cacheInv_decodeFunctionCall (apiSet : Bool) (o : String → Option RawResponse)
    (cd a : String) (d : Bool) (s : SysState) (h : cacheInv s) :
    cacheInv (decodeFunctionCall apiSet o cd a d s).2 := by
  simp only [decodeFunctionCall]
  split
  · exact h
  · have h1 := cacheInv_resolveDelegate apiSet o a d _
      (cacheInv_fetchContractData apiSet o a s h)
    split
    · split
      · exact h1
      · exact h1
    · exact h1

theorem cacheInv_decodeFunctionOutput (apiSet : Bool) (o : String → Option RawResponse)
    (od : String) (sel : Option String) (a : String) (s : SysState) (h : cacheInv s) :
    cacheInv (decodeFunctionOutput apiSet o od sel a s).2 := by
  simp only [decodeFunctionOutput]
  split
  · exact h
  · have h1 := cacheInv_fetchContractData apiSet o a s h
    split
    · split
      · split
        · exact h1
        · exact h1
      · exact h1
    · exact h1

theorem cacheInv_fetchFromData (apiSet : Bool) (o : String → Option RawResponse)
    (fr : Option String) (s : SysState) (h : cacheInv s) :
    cacheInv (fetchFromData apiSet o fr s).2 := by
  simp only [fetchFromData]
  split
  · split
    · exact h
    · exact cacheInv_fetchContractData apiSet o _ s h
  · exact h

theorem cacheInv_outputBlock (apiSet : Bool) (o : String → Option RawResponse)
    (output : Option String) (sel : Option String) (toAddr indent result : String)
    (s : SysState) (h : cacheInv s) :
    cacheInv (outputBlock apiSet o output sel toAddr indent result s).2 := by
  simp only [outputBlock]
  split
  · have h1 := cacheInv_decodeFunctionOutput apiSet o (output.getD "") sel toAddr s h
    split
    · exact h1
    · exact h1
    · exact h1
  · exact h

theorem cacheInv_formatTraceHead (lS : Option Int → String) (apiSet : Bool)
    (o : String → Option RawResponse) (ct fr : Option String) (toAddr : String)
    (inp out err g gu : Option String) (d : Nat) (s : SysState) (h : cacheInv s) :
    cacheInv (formatTraceHead lS apiSet o ct fr toAddr inp out err g gu d s).2 := by
  simp only [formatTraceHead]
  have h1 := cacheInv_fetchContractData apiSet o toAddr s h
  have h2 := cacheInv_fetchFromData apiSet o fr _ h1
  have h3 := cacheInv_decodeFunctionCall apiSet o (jsOrStr inp "0x") toAddr
    (ct = some "DELEGATECALL") _ h2
  split
  · exact cacheInv_outputBlock _ _ _ _ _ _ _ _ h3
  · exact cacheInv_outputBlock _ _ _ _ _ _ _ _ h3

mutual

theorem cacheInv_formatTrace (lS : Option Int → String) (apiSet : Bool)
    (o : String → Option RawResponse) :
    ∀ (fr : CallFrame) (d : Nat) (s : SysState), cacheInv s →
      cacheInv (formatTrace lS apiSet o fr d s).2
  | CallFrame.mk ct fa ta inp out err g gu calls, d, s, h => by
    simp only [formatTrace]
    have h1 := cacheInv_formatTraceHead lS apiSet o ct fa ta inp out err g gu d s h
    split
    · exact h1
    · exact cacheInv_formatTraceChildren lS apiSet o calls (d + 1) _ _ h1

theorem cacheInv_formatTraceChildren (lS : Option Int → String) (apiSet : Bool)
    (o : String → Option RawResponse) :
    ∀ (cs : List CallFrame) (d : Nat) (acc : String) (s : SysState), cacheInv s →
      cacheInv (formatTraceChildren lS apiSet o cs d acc s).2
  | [], _, _, _, h => h
  | c :: rest, d, acc, s, h => by
    simp only [formatTraceChildren]
    have h1 := cacheInv_formatTrace lS apiSet o c d s h
    split
    · exact h1
    · exact cacheInv_formatTraceChildren lS apiSet o rest d _ _ h1

end

theorem cacheInv_formatCallTrace (fS : Int → String) (lS : Option Int → String)
    (apiSet : Bool) (o : String → Option RawResponse) (tr : CallFrame) (tx : TxInfo)
    (s : SysState) (h : cacheInv s) :
    cacheInv (formatCallTrace fS lS apiSet o tr tx s).2 := by
  simp only [formatCallTrace]
  split
  · exact h
  · rename_i toA heq
    split
    · exact h
    · have h1 := cacheInv_fetchContractData apiSet o toA s h
      have h2 := cacheInv_decodeFunctionCall apiSet o tx.input toA false _ h1
      have h3 := cacheInv_formatTrace lS apiSet o tr 0 _ h2
      split
      · exact h3
      · exact h3

theorem cacheInv_formatRawTrace (apiSet : Bool) (o : String → Option RawResponse)
    (tr : RawTrace) (tx : TxInfo) (s : SysState) (h : cacheInv s) :
    cacheInv (formatRawTrace apiSet o tr tx s).2 := by
  simp only [formatRawTrace]
  split
  · exact cacheInv_decodeFunctionCall apiSet o tx.input _ false s h
  · exact h

/-- Every reachable state satisfies the cache discipline invariant. -/
theorem cacheInv_reachable (apiSet : Bool) (s : SysState) (h : Reachable apiSet s) :
    cacheInv s := by
  induction h with
  | init =>
    refine ⟨?_, ?_, ?_⟩
    · exact List.nodup_nil
    · intro a ha
      simp [initialState] at ha
    · intro k hk
      simp [initialState] at hk
  | fetchStep s o a _ ih => exact cacheInv_fetchContractData apiSet o a s ih
  | implStep s o p _ ih => exact cacheInv_getImplementationAddress apiSet o p s ih
  | decodeCallStep s o cd a d _ ih => exact cacheInv_decodeFunctionCall apiSet o cd a d s ih
  | decodeOutputStep s o od sel a _ ih =>
    exact cacheInv_decodeFunctionOutput apiSet o od sel a s ih
  | callTraceStep s fS lS o tr tx _ ih => exact cacheInv_formatCallTrace fS lS apiSet o tr tx s ih
  | rawTraceStep s o tr tx _ ih => exact cacheInv_formatRawTrace apiSet o tr tx s ih

/-! ## Claim C6 (amended) and claim C8 (amended) -/

theorem fetchContractData_cached (o : String → Option RawResponse) (a : String)
    (s : SysState) (v : Option ContractData) (ha : a ≠ "") (hz : a ≠ zeroAddress)
    (hv : objGet s.contractCache (jsToLower a) = some v) :
    fetchContractData true o a s =
      (v, { s with contractKeyLog := s.contractKeyLog ++ [jsToLower a] ++ [jsToLower a] }) := by
  simp only [fetchContractData, if_neg ha, if_neg hz,
    if_neg (by decide : ¬(true = false))]
  split
  · rename_i v2 hv2
    rw [hv] at hv2
    cases hv2
    rfl
  · rename_i hnone
    rw [hv] at hnone
    cases hnone

theorem fetchContractData_caches (o : String → Option RawResponse) (a : String)
    (s : SysState) (ha : a ≠ "") (hz : a ≠ zeroAddress) :
    objGet (fetchContractData true o a s).2.contractCache (jsToLower a) =
      some (fetchContractData true o a s).1 := by
  simp only [fetchContractData, if_neg ha, if_neg hz,
    if_neg (by decide : ¬(true = false))]
  split
  · rename_i v hv
    dsimp only
    exact hv
  · split
    · dsimp only
      rw [objGet_objSet_self]
    · split
      · dsimp only
        rw [objGet_objSet_self]
      · dsimp only
        rw [objGet_objSet_self]

theorem jsToLower_eq_empty_iff (a : String) : jsToLower a = "" ↔ a = "" := by
  unfold jsToLower
  constructor
  · intro h
    have hd : (String.mk (a.data.map jsToLowerChar)).data = ("" : String).data := by rw [h]
    simp at hd
    cases a with
    | mk d => simp at hd; simp [hd]
  · intro h
    subst h
    rfl

/-- **C6 (amended).** The resolver's caching discipline: (1) across every
reachable process history, no address is fetched twice — the fetch log never
repeats a key; (2) for any two addresses equal up to letter case, neither
empty nor the zero address, a second call returns exactly what the first call
left in the cache — the identical positive-or-null value — and performs no new
fetch; (3) a call with the empty address, or naming the zero address exactly
in lower case, returns null immediately without touching the cache (the
exception the counterexample forces); (4) a network or parse failure on a
cache miss degrades to null and is cached as null. -/
theorem c6_fetch_discipline :
    (∀ (apiSet : Bool) (s : SysState), Reachable apiSet s → ∀ a : String,
      s.fetchLog.count a ≤ 1) ∧
    (∀ (o1 o2 : String → Option RawResponse) (a a' : String) (s : SysState),
      a ≠ "" → a ≠ zeroAddress → a' ≠ zeroAddress → jsToLower a' = jsToLower a →
      (fetchContractData true o2 a' (fetchContractData true o1 a s).2).1 =
        (fetchContractData true o1 a s).1 ∧
      objGet (fetchContractData true o1 a s).2.contractCache (jsToLower a) =
        some (fetchContractData true o1 a s).1 ∧
      (fetchContractData true o2 a' (fetchContractData true o1 a s).2).2.fetchLog =
        (fetchContractData true o1 a s).2.fetchLog) ∧
    (∀ (apiSet : Bool) (o : String → Option RawResponse) (s : SysState),
      fetchContractData apiSet o "" s = (none, s) ∧
      fetchContractData apiSet o zeroAddress s = (none, s)) ∧
    (∀ (o : String → Option RawResponse) (a : String) (s : SysState),
      a ≠ "" → a ≠ zeroAddress → objGet s.contractCache (jsToLower a) = none →
      o (jsToLower a) = none →
      (fetchContractData true o a s).1 = none ∧
      objGet (fetchContractData true o a s).2.contractCache (jsToLower a) = some none) := by
  refine ⟨?_, ?_, ?_, ?_⟩
  · intro apiSet s h a
    exact List.nodup_iff_count_le_one.mp (cacheInv_reachable apiSet s h).1 a
  · intro o1 o2 a a' s ha hz hz' hlow
    have ha' : a' ≠ "" := by
      intro he
      subst he
      have : jsToLower a = "" := by rw [← hlow]; rfl
      exact ha ((jsToLower_eq_empty_iff a).mp this)
    have hcache := fetchContractData_caches o1 a s ha hz
    have hsecond := fetchContractData_cached o2 a'
      (fetchContractData true o1 a s).2 (fetchContractData true o1 a s).1 ha' hz'
      (by rw [hlow]; exact hcache)
    refine ⟨?_, hcache, ?_⟩
    · rw [hsecond]
    · rw [hsecond]
  · intro apiSet o s
    cases apiSet <;> exact ⟨rfl, rfl⟩
  · intro o a s ha hz hmiss horacle
    simp only [fetchContractData, if_neg ha, if_neg hz,
      if_neg (by decide : ¬(true = false))]
    split
    · rename_i v hv
      rw [hmiss] at hv
      cases hv
    · rw [horacle]
      exact ⟨rfl, by dsimp only; rw [objGet_objSet_self]⟩

/-- Witness for C6's amended claim: a hit-after-miss round trip on a
mixed-case address, plus the zero-address and failure clauses, at concrete
inputs. -/
theorem c6_witness :
    ((fetchContractData true oracleC6 "0xab" (fetchContractData true oracleC6 "0xAB"
        initialState).2).1 = (fetchContractData true oracleC6 "0xAB" initialState).1 ∧
      objGet (fetchContractData true oracleC6 "0xAB" initialState).2.contractCache
        (jsToLower "0xAB") = some (fetchContractData true oracleC6 "0xAB" initialState).1 ∧
      (fetchContractData true oracleC6 "0xab" (fetchContractData true oracleC6 "0xAB"
        initialState).2).2.fetchLog =
        (fetchContractData true oracleC6 "0xAB" initialState).2.fetchLog) ∧
    fetchContractData true oracleC6 zeroAddress initialState = (none, initialState) ∧
    (fetchContractData true oracleC6 "0xab" initialState).1 = none :=
  ⟨(c6_fetch_discipline.2.1 oracleC6 oracleC6 "0xAB" "0xab" initialState (by decide)
      (by decide) (by decide) (by decide)),
   (c6_fetch_discipline.2.2.1 true oracleC6 initialState).2,
   (c6_fetch_discipline.2.2.2 oracleC6 "0xab" initialState (by decide) (by decide)
      (by decide) (by decide)).1⟩

/-- **C8 (amended).** Every key ever used to read or write the
contract-metadata cache, across every reachable process history, is the
lower-cased address; the implementation-address cache, by contrast, is keyed
by the address exactly as the caller supplied it (see the counterexample). -/
theorem c8_contract_cache_keys_lowercase (apiSet : Bool) (s : SysState)
    (h : Reachable apiSet s) : ∀ k ∈ s.contractKeyLog, jsToLower k = k :=
  (cacheInv_reachable apiSet s h).2.2

/-- Witness for C8's amended claim at a concrete decode step on a mixed-case
address: the key the step logged is fixed by lower-casing. -/
theorem c8_witness :
    jsToLower "0xabcdabcdabcdabcdabcdabcdabcdabcdabcdabcd" =
      "0xabcdabcdabcdabcdabcdabcdabcdabcdabcdabcd" :=
  c8_contract_cache_keys_lowercase true
    (decodeFunctionCall true (fun _ => none) "0x12345678" c8Addr true initialState).2
    (Reachable.decodeCallStep initialState (fun _ => none) "0x12345678" c8Addr true
      Reachable.init)
    "0xabcdabcdabcdabcdabcdabcdabcdabcdabcdabcd" (by decide)
